import Mathlib

/-!
Shallow embedding of the `ts-simplify-types` repository (src/simplify.ts and
src/index.ts): a classification and normalization engine for type-tracing
dumps.  Records are JavaScript objects, modelled as ordered association lists
of string keys and JSON-like values; `undefined` is an explicit value, since
the source "deletes" fields by assigning `undefined` and the final
serialization drops exactly the `undefined`-valued fields.
-/

/-- A JavaScript/JSON value as manipulated by the source.  Numbers are
modelled as integers: every numeric field the engine inspects (ids, member
counts, the conditional-type sentinels) is an integer in the data model. -/
inductive Value where
  | undef : Value
  | vNull : Value
  | vBool : Bool → Value
  | vNum : Int → Value
  | vStr : String → Value
  | vArr : List Value → Value
  | vObj : List (String × Value) → Value
deriving Repr

/-- A JavaScript object: insertion-ordered fields.  (Objects decoded from
JSON have pairwise distinct keys; theorems that need this state it.) -/
abbrev Obj := List (String × Value)

/-- The keys of an object, in insertion order. -/
def keys (o : Obj) : List String := o.map Prod.fst

/-- Property read `o[k]`: the value at the first occurrence of `k`, and
`undefined` when the key is absent (JavaScript semantics). -/
def getF : Obj → String → Value
  | [], _ => .undef
  | (k', v) :: rest, k => if k' = k then v else getF rest k

/-- Property write `o[k] = v`: an existing key keeps its position and gets the
new value; a new key is appended (JavaScript insertion-order semantics). -/
def setF : Obj → String → Value → Obj
  | [], k, v => [(k, v)]
  | (k', v') :: rest, k, v =>
      if k' = k then (k, v) :: rest else (k', v') :: setF rest k v

/-- JavaScript truthiness: `undefined`, `null`, `false`, `0` and `""` are
falsy; every other value (including any object or array) is truthy. -/
def truthy : Value → Bool
  | .undef => false
  | .vNull => false
  | .vBool b => b
  | .vNum n => n != 0
  | .vStr s => s != ""
  | .vArr _ => true
  | .vObj _ => true

/-- Nullish test, used by the `??` operator. -/
def isNullish : Value → Bool
  | .undef => true
  | .vNull => true
  | _ => false

/-- The `a ?? b` operator: `b` exactly when `a` is nullish. -/
def jsCoalesce (a b : Value) : Value := if isNullish a then b else a

/-- The `a && b` operator as a value: `b` when `a` is truthy, else `a`. -/
def jsAnd (a b : Value) : Value := if truthy a then b else a

/-- Property access `v.k` on an arbitrary value.  Objects look the key up;
other values expose only the built-in `length` (arrays and strings) and
yield `undefined` otherwise.  Every access in the embedded code is applied
to a value already known to be non-nullish (it sits under a truthiness or
optional-chaining guard), so the throwing cases of JavaScript never arise
at these call sites. -/
def getProp : Value → String → Value
  | .vObj fields, k => getF fields k
  | .vArr xs, k => if k = "length" then .vNum xs.length else .undef
  | .vStr s, k => if k = "length" then .vNum s.length else .undef
  | _, _ => Value.undef

/-- Optional chaining `v?.k`. -/
def optChainProp (v : Value) (k : String) : Value :=
  if isNullish v then .undef else getProp v k

/-- Strict equality `===`.  Primitives compare structurally; arrays and
objects compare by reference in JavaScript, and the embedded code only ever
compares numbers (type ids) and string literals, so distinct composite
values are compared as unequal. -/
def jsStrictEq : Value → Value → Bool
  | .undef, .undef => true
  | .vNull, .vNull => true
  | .vBool a, .vBool b => a == b
  | .vNum a, .vNum b => a == b
  | .vStr a, .vStr b => a == b
  | _, _ => false

/-- The test `v < 0` as used on the conditional-type sentinel fields, which
the data model declares to be numbers: a number is compared numerically and
`undefined` compares as not-less (`NaN` propagation); other shapes do not
occur at this comparison's call sites. -/
def jsLtZero : Value → Bool
  | .vNum n => n < 0
  | _ => false

/-- The call `v.includes(s)`: membership for arrays (SameValueZero, which on
strings agrees with `===`), substring test for strings, and a `TypeError`
for any value without an `includes` method — in particular `undefined`,
which is what `flags` is when the raw record carries no `flags` field. -/
def jsIncludes (v : Value) (s : String) : Except String Bool :=
  match v with
  | .vArr xs => .ok (xs.any (fun x => jsStrictEq x (.vStr s)))
  | .vStr str => .ok ((str.splitOn s).length != 1)
  | _ => .error "includes is not a function"

/-- The call `v.startsWith(s)`: defined for strings, a `TypeError` otherwise. -/
def jsCallStartsWith (v : Value) (s : String) : Except String Bool :=
  match v with
  | .vStr str => .ok (s.toList.isPrefixOf str.toList)
  | _ => .error "startsWith is not a function"

/-- The call `v.endsWith(s)`: defined for strings, a `TypeError` otherwise. -/
def jsCallEndsWith (v : Value) (s : String) : Except String Bool :=
  match v with
  | .vStr str => .ok (s.toList.isSuffixOf str.toList)
  | _ => .error "endsWith is not a function"

/-- The guarded call `v?.startsWith(s)`: `undefined` when `v` is nullish. -/
def optChainStartsWith (v : Value) (s : String) : Except String Value :=
  if isNullish v then .ok .undef
  else match jsCallStartsWith v s with
    | .ok b => .ok (.vBool b)
    | .error e => .error e

/-- One piece of an object literal: either a named field or a `...o` spread. -/
inductive Entry where
  | field : String → Value → Entry
  | spread : Obj → Entry

/-- Spreading an object onto an accumulator: each field is written in order,
so keys already present are overwritten in place and new keys are appended —
JavaScript spread semantics. -/
def spreadOnto (acc : Obj) (o : Obj) : Obj :=
  o.foldl (fun a kv => setF a kv.1 kv.2) acc

/-- Apply one literal entry. -/
def applyEntry (acc : Obj) : Entry → Obj
  | .field k v => setF acc k v
  | .spread o => spreadOnto acc o

/-- An object literal `\x7b k₁: v₁, ...o, k₂: v₂ \x7d`: entries applied left
to right starting from the empty object. -/
def objLit (es : List Entry) : Obj := es.foldl applyEntry []

/-- `firstToUpper` from src/simplify.ts line 253: capitalize the first
character (`name[0].toUpperCase() + name.substring(1)`; on the empty string
the source would throw, but both call sites pass one of the nonempty
anonymous tags). -/
def firstToUpper (name : String) : String :=
  String.mk (match name.toList with
  | [] => []
  | c :: cs => c.toUpper :: cs)

/-- The replacement `name.replace(anchored-double-underscore, "")`:
drop a leading `__` if present. -/
def stripUnderscores (s : String) : String :=
  match s.toList with
  | '_' :: '_' :: cs => String.mk cs
  | _ => s

/-- Read a string out of a `name` value.  At both call sites the enclosing
guard has just compared `name` with a string literal by `===`, so the value
is that string. -/
def strOf : Value → String
  | .vStr s => s
  | _ => ""

/-- The regular-expression match of src/simplify.ts line 197: the name has
shape `__@label@digits` with a nonempty `@`-free label and a nonempty digit
suffix; on success the extracted label. -/
def knownSymbolMatch (s : String) : Option String :=
  match s.toList with
  | '_' :: '_' :: '@' :: rest =>
      let label := rest.takeWhile (fun c => c ≠ '@')
      match rest.dropWhile (fun c => c ≠ '@') with
      | '@' :: ds =>
          if label ≠ [] ∧ ds ≠ [] ∧ ds.all Char.isDigit then some (String.mk label)
          else none
      | _ => none
  | _ => none

/-- `match ? match[1] : type.name` of the `KnownSymbol` rule; the guard has
established that the name is a string. -/
def knownSymbolRename (v : Value) : Value :=
  match v with
  | .vStr s =>
      match knownSymbolMatch s with
      | some lab => .vStr lab
      | none => .vStr s
  | v => v

/-- `makeAliasedKindIfNamed` (src/simplify.ts line 248 and src/index.ts line
379): prepend `Aliased` exactly when the record's `name` is truthy. -/
def makeAliasedKindIfNamed (type : Obj) (kind : String) : String :=
  if truthy (getF type "name") then "Aliased" ++ kind else kind

/-- The result of the unconditional preprocessing steps shared by both
helpers (src/simplify.ts lines 27–48 = src/index.ts lines 167–188). -/
structure Pre where
  type : Obj
  flags : Value
  display : Value
  isDestructuring : Bool

/-- The location object `\x7b path, line, char \x7d` built from a located node. -/
def locationFrom (node : Value) : Value :=
  .vObj [("path", getProp node "path"),
         ("line", optChainProp (getProp node "start") "line"),
         ("char", optChainProp (getProp node "start") "character")]

/-- Preprocessing, identical in both source files: rename `symbolName` to
`name`; remember whether `destructuringPattern` was present; resolve the
location from the first non-nullish of the three candidate fields and clear
those fields; pull `flags` and `display` out of the record; clear
`recursionId`. -/
def preprocess (type0 : Obj) : Pre :=
  let t1 := setF type0 "name" (getF type0 "symbolName")
  let t2 := setF t1 "symbolName" .undef
  let isDestructuring := truthy (getF t2 "destructuringPattern")
  let node := jsCoalesce (getF t2 "destructuringPattern")
                (jsCoalesce (getF t2 "referenceLocation") (getF t2 "firstDeclaration"))
  let t3 := setF t2 "destructuringPattern" .undef
  let t4 := setF t3 "referenceLocation" .undef
  let t5 := setF t4 "firstDeclaration" .undef
  let t6 := setF t5 "location" (jsAnd node (locationFrom node))
  let flags := getF t6 "flags"
  let t7 := setF t6 "flags" .undef
  let display := getF t7 "display"
  let t8 := setF t7 "display" .undef
  let t9 := setF t8 "recursionId" .undef
  { type := t9, flags := flags, display := display, isDestructuring := isDestructuring }

/-- `makeAnonymous` (src/simplify.ts lines 239–246): the computed
`Anonymous…` kind (or the supplied override), `display` kept only when no
location was resolved, `name` cleared. -/
def makeAnonymous (type : Obj) (display : Value) (kind : Option String) : Obj :=
  objLit [.field "kind" (.vStr (match kind with
            | some k => k
            | none => "Anonymous" ++ firstToUpper (stripUnderscores (strOf (getF type "name"))))),
          .spread type,
          .field "display" (if truthy (getF type "location") then .undef else display),
          .field "name" .undef]

/-- The guard `display && display.startsWith("(props:") &&
display.endsWith("=> Element")`, with JavaScript short-circuiting: the
method calls happen only when the previous conjunct held, and a thrown
`TypeError` propagates through `bind`. -/
def jsxGuard (display : Value) : Except String Bool :=
  if truthy display then
    (jsCallStartsWith display "(props:").bind (fun b1 =>
      if b1 then jsCallEndsWith display "=> Element" else .ok false)
  else .ok false

/-- The shared tail of both rule chains: the `JsxElementSignature` guess,
else the `Other` fallback (src/simplify.ts lines 224–237 = src/index.ts
lines 364–377). -/
def jsxOrOther (type : Obj) (display : Value) : Except String Obj :=
  (jsxGuard display).bind (fun isJsx =>
    if isJsx then
      .ok (objLit [.field "kind" (.vStr "JsxElementSignature"), .spread type,
                   .field "display" display])
    else
      .ok (objLit [.field "kind" (.vStr "Other"), .spread type,
                   .field "display" display]))

/-- The ordered rule chain of `simplifyTypeHelper` (src/simplify.ts lines
50–237), stated over the result of preprocessing.  A thrown `TypeError` is
an `Except.error`. -/
def simplifyRules (pre : Pre) : Except String Obj :=
  if truthy (getF pre.type "intrinsicName") then
    .ok (objLit [.field "kind" (.vStr "Intrinsic"), .spread pre.type,
                 .field "name" (getF pre.type "intrinsicName"),
                 .field "intrinsicName" .undef])
  else if truthy (getF pre.type "unionTypes") then
    .ok (objLit [.field "kind" (.vStr (makeAliasedKindIfNamed pre.type "Union")),
                 .field "count" (getProp (getF pre.type "unionTypes") "length"),
                 .field "types" (getF pre.type "unionTypes"),
                 .spread pre.type, .field "unionTypes" .undef])
  else if truthy (getF pre.type "intersectionTypes") then
    .ok (objLit [.field "kind" (.vStr (makeAliasedKindIfNamed pre.type "Intersection")),
                 .field "count" (getProp (getF pre.type "intersectionTypes") "length"),
                 .field "types" (getF pre.type "intersectionTypes"),
                 .spread pre.type, .field "intersectionTypes" .undef])
  else if truthy (getF pre.type "indexedAccessObjectType") then
    .ok (objLit [.field "kind" (.vStr (makeAliasedKindIfNamed pre.type "IndexedAccess")),
                 .spread pre.type])
  else if truthy (getF pre.type "keyofType") then
    .ok (objLit [.field "kind" (.vStr (makeAliasedKindIfNamed pre.type "IndexType")),
                 .spread pre.type])
  else if truthy (getF pre.type "isTuple") then
    .ok (objLit [.field "kind" (.vStr (makeAliasedKindIfNamed pre.type "Tuple")),
                 .spread pre.type, .field "isTuple" .undef])
  else if truthy (getF pre.type "conditionalCheckType") then
    .ok (objLit [.field "kind" (.vStr (makeAliasedKindIfNamed pre.type "ConditionalType")),
                 .spread pre.type,
                 .field "conditionalTrueType"
                   (if jsLtZero (getF pre.type "conditionalTrueType") then .undef
                    else getF pre.type "conditionalTrueType"),
                 .field "conditionalFalseType"
                   (if jsLtZero (getF pre.type "conditionalFalseType") then .undef
                    else getF pre.type "conditionalFalseType")])
  else if truthy (getF pre.type "substitutionBaseType") then
    .ok (objLit [.field "kind" (.vStr (makeAliasedKindIfNamed pre.type "SubstitutionType")),
                 .field "originalType" (getF pre.type "substitutionBaseType"),
                 .spread pre.type, .field "substitutionBaseType" .undef])
  else if truthy (getF pre.type "reverseMappedSourceType") then
    .ok (objLit [.field "kind" (.vStr (makeAliasedKindIfNamed pre.type "ReverseMappedType")),
                 .field "sourceType" (getF pre.type "reverseMappedSourceType"),
                 .field "mappedType" (getF pre.type "reverseMappedMappedType"),
                 .field "constraintType" (getF pre.type "reverseMappedConstraintType"),
                 .spread pre.type,
                 .field "reverseMappedSourceType" .undef,
                 .field "reverseMappedMappedType" .undef,
                 .field "reverseMappedConstraintType" .undef])
  else if truthy (getF pre.type "aliasTypeArguments") then
    .ok (objLit [.field "kind" (.vStr "GenericTypeAlias"), .spread pre.type,
                 .field "instantiatedType" .undef,
                 .field "aliasedType" (getF pre.type "instantiatedType"),
                 .field "aliasedTypeTypeArguments" (getF pre.type "typeArguments")])
  else if truthy (getF pre.type "instantiatedType")
          && truthy (optChainProp (getF pre.type "typeArguments") "length") then
    .ok (objLit [.field "kind"
                   (.vStr (if jsStrictEq (getF pre.type "instantiatedType") (getF pre.type "id")
                           then "GenericType" else "GenericInstantiation")),
                 .spread pre.type,
                 .field "instantiatedType"
                   (if jsStrictEq (getF pre.type "instantiatedType") (getF pre.type "id")
                    then .undef else getF pre.type "instantiatedType")])
  else if pre.isDestructuring then
    .ok (objLit [.field "kind" (.vStr "Destructuring"), .spread pre.type])
  else
    (jsIncludes pre.flags "StringLiteral").bind (fun hit =>
    if hit then
      .ok (objLit [.field "kind" (.vStr "StringLiteral"), .field "value" pre.display,
                   .spread pre.type])
    else
    (jsIncludes pre.flags "NumberLiteral").bind (fun hit =>
    if hit then
      .ok (objLit [.field "kind" (.vStr "NumberLiteral"), .field "value" pre.display,
                   .spread pre.type])
    else
    (jsIncludes pre.flags "BigIntLiteral").bind (fun hit =>
    if hit then
      .ok (objLit [.field "kind" (.vStr "BigIntLiteral"), .field "value" pre.display,
                   .spread pre.type])
    else
    (jsIncludes pre.flags "TypeParameter").bind (fun hit =>
    if hit then .ok (objLit [.field "kind" (.vStr "TypeParameter"), .spread pre.type])
    else
    (jsIncludes pre.flags "UniqueESSymbol").bind (fun hit =>
    if hit then .ok (objLit [.field "kind" (.vStr "Unique"), .spread pre.type])
    else
    (optChainStartsWith (getF pre.type "name") "__@").bind (fun g =>
    if truthy g then
      .ok (objLit [.field "kind" (.vStr "KnownSymbol"), .spread pre.type,
                   .field "name" (knownSymbolRename (getF pre.type "name"))])
    else if jsStrictEq (getF pre.type "name") (.vStr "__function")
            || jsStrictEq (getF pre.type "name") (.vStr "__type")
            || jsStrictEq (getF pre.type "name") (.vStr "__class")
            || jsStrictEq (getF pre.type "name") (.vStr "__object") then
      .ok (makeAnonymous pre.type pre.display none)
    else if jsStrictEq (getF pre.type "name") (.vStr "__jsxAttributes") then
      .ok (makeAnonymous pre.type pre.display (some "JsxAttributesType"))
    else
    (jsIncludes pre.flags "Object").bind (fun objFlag =>
    if objFlag && truthy (getF pre.type "name") then
      .ok (objLit [.field "kind" (.vStr "Object"), .spread pre.type])
    else
      jsxOrOther pre.type pre.display)))))))

/-- `simplifyTypeHelper` itself: preprocessing followed by the rule chain. -/
def simplifyTypeHelper (type0 : Obj) : Except String Obj :=
  simplifyRules (preprocess type0)

/-- `processTypeHelper` (src/index.ts lines 167–382): the near-duplicate
rule chain of the pipeline entry point.  It differs from
`simplifyTypeHelper` only in the anonymous-name region: no `KnownSymbol`
rule, only the `__type` and `__object` anonymous names (handled inline), no
`__jsxAttributes` rule, and the Object-flag rule written as nested `if`s.  This is the ordered rule chain over the
preprocessed record (src/index.ts lines 190–377). -/
def processRules (pre : Pre) : Except String Obj :=
  if truthy (getF pre.type "intrinsicName") then
    .ok (objLit [.field "kind" (.vStr "Intrinsic"), .spread pre.type,
                 .field "name" (getF pre.type "intrinsicName"),
                 .field "intrinsicName" .undef])
  else if truthy (getF pre.type "unionTypes") then
    .ok (objLit [.field "kind" (.vStr (makeAliasedKindIfNamed pre.type "Union")),
                 .field "count" (getProp (getF pre.type "unionTypes") "length"),
                 .field "types" (getF pre.type "unionTypes"),
                 .spread pre.type, .field "unionTypes" .undef])
  else if truthy (getF pre.type "intersectionTypes") then
    .ok (objLit [.field "kind" (.vStr (makeAliasedKindIfNamed pre.type "Intersection")),
                 .field "count" (getProp (getF pre.type "intersectionTypes") "length"),
                 .field "types" (getF pre.type "intersectionTypes"),
                 .spread pre.type, .field "intersectionTypes" .undef])
  else if truthy (getF pre.type "indexedAccessObjectType") then
    .ok (objLit [.field "kind" (.vStr (makeAliasedKindIfNamed pre.type "IndexedAccess")),
                 .spread pre.type])
  else if truthy (getF pre.type "keyofType") then
    .ok (objLit [.field "kind" (.vStr (makeAliasedKindIfNamed pre.type "IndexType")),
                 .spread pre.type])
  else if truthy (getF pre.type "isTuple") then
    .ok (objLit [.field "kind" (.vStr (makeAliasedKindIfNamed pre.type "Tuple")),
                 .spread pre.type, .field "isTuple" .undef])
  else if truthy (getF pre.type "conditionalCheckType") then
    .ok (objLit [.field "kind" (.vStr (makeAliasedKindIfNamed pre.type "ConditionalType")),
                 .spread pre.type,
                 .field "conditionalTrueType"
                   (if jsLtZero (getF pre.type "conditionalTrueType") then .undef
                    else getF pre.type "conditionalTrueType"),
                 .field "conditionalFalseType"
                   (if jsLtZero (getF pre.type "conditionalFalseType") then .undef
                    else getF pre.type "conditionalFalseType")])
  else if truthy (getF pre.type "substitutionBaseType") then
    .ok (objLit [.field "kind" (.vStr (makeAliasedKindIfNamed pre.type "SubstitutionType")),
                 .field "originalType" (getF pre.type "substitutionBaseType"),
                 .spread pre.type, .field "substitutionBaseType" .undef])
  else if truthy (getF pre.type "reverseMappedSourceType") then
    .ok (objLit [.field "kind" (.vStr (makeAliasedKindIfNamed pre.type "ReverseMappedType")),
                 .field "sourceType" (getF pre.type "reverseMappedSourceType"),
                 .field "mappedType" (getF pre.type "reverseMappedMappedType"),
                 .field "constraintType" (getF pre.type "reverseMappedConstraintType"),
                 .spread pre.type,
                 .field "reverseMappedSourceType" .undef,
                 .field "reverseMappedMappedType" .undef,
                 .field "reverseMappedConstraintType" .undef])
  else if truthy (getF pre.type "aliasTypeArguments") then
    .ok (objLit [.field "kind" (.vStr "GenericTypeAlias"), .spread pre.type,
                 .field "instantiatedType" .undef,
                 .field "aliasedType" (getF pre.type "instantiatedType"),
                 .field "aliasedTypeTypeArguments" (getF pre.type "typeArguments")])
  else if truthy (getF pre.type "instantiatedType")
          && truthy (optChainProp (getF pre.type "typeArguments") "length") then
    .ok (objLit [.field "kind"
                   (.vStr (if jsStrictEq (getF pre.type "instantiatedType") (getF pre.type "id")
                           then "GenericType" else "GenericInstantiation")),
                 .spread pre.type,
                 .field "instantiatedType"
                   (if jsStrictEq (getF pre.type "instantiatedType") (getF pre.type "id")
                    then .undef else getF pre.type "instantiatedType")])
  else if pre.isDestructuring then
    .ok (objLit [.field "kind" (.vStr "Destructuring"), .spread pre.type])
  else
    (jsIncludes pre.flags "StringLiteral").bind (fun hit =>
    if hit then
      .ok (objLit [.field "kind" (.vStr "StringLiteral"), .field "value" pre.display,
                   .spread pre.type])
    else
    (jsIncludes pre.flags "NumberLiteral").bind (fun hit =>
    if hit then
      .ok (objLit [.field "kind" (.vStr "NumberLiteral"), .field "value" pre.display,
                   .spread pre.type])
    else
    (jsIncludes pre.flags "BigIntLiteral").bind (fun hit =>
    if hit then
      .ok (objLit [.field "kind" (.vStr "BigIntLiteral"), .field "value" pre.display,
                   .spread pre.type])
    else
    (jsIncludes pre.flags "TypeParameter").bind (fun hit =>
    if hit then .ok (objLit [.field "kind" (.vStr "TypeParameter"), .spread pre.type])
    else
    (jsIncludes pre.flags "UniqueESSymbol").bind (fun hit =>
    if hit then .ok (objLit [.field "kind" (.vStr "Unique"), .spread pre.type])
    else
    if jsStrictEq (getF pre.type "name") (.vStr "__type") then
      .ok (objLit [.field "kind" (.vStr "AnonymousType"), .spread pre.type,
                   .field "display" (if truthy (getF pre.type "location") then .undef
                      else pre.display),
                   .field "name" .undef])
    else if jsStrictEq (getF pre.type "name") (.vStr "__object") then
      .ok (objLit [.field "kind" (.vStr "AnonymousObject"), .spread pre.type,
                   .field "display" (if truthy (getF pre.type "location") then .undef
                      else pre.display),
                   .field "name" .undef])
    else
    (jsIncludes pre.flags "Object").bind (fun objFlag =>
    if objFlag then
      if truthy (getF pre.type "name") then
        .ok (objLit [.field "kind" (.vStr "Object"), .spread pre.type])
      else
        jsxOrOther pre.type pre.display
    else
      jsxOrOther pre.type pre.display))))))

/-- `processTypeHelper` itself: the same preprocessing followed by the
pipeline's own rule chain. -/
def processTypeHelper (type0 : Obj) : Except String Obj :=
  processRules (preprocess type0)

/-- The fixed leading keys of the normalized output. -/
def sixKeys : List String :=
  ["id", "kind", "name", "aliasTypeArguments", "instantiatedType", "typeArguments"]

/-- The seed object literal of the property-order normalization: the six
fixed keys, read off the classified record (`undefined` when absent). -/
def reorderSeed (processed : Obj) : Obj :=
  [("id", getF processed "id"), ("kind", getF processed "kind"),
   ("name", getF processed "name"),
   ("aliasTypeArguments", getF processed "aliasTypeArguments"),
   ("instantiatedType", getF processed "instantiatedType"),
   ("typeArguments", getF processed "typeArguments")]

/-- One iteration of the `for (const prop in processed)` copy loop: a key
whose slot in the accumulator is not already truthy, other than `location`
and `display`, is written with its classified value. -/
def reorderStep (processed acc : Obj) (k : String) : Obj :=
  if truthy (getF acc k) = false ∧ k ≠ "location" ∧ k ≠ "display" then
    setF acc k (getF processed k)
  else acc

/-- The property-order normalization shared by `simplifyType` (src/simplify.ts
lines 1–25) and `processType` (src/index.ts lines 141–165): seed the six fixed
keys, copy over every remaining key whose slot is not already truthy (skipping
`location` and `display`), then append `location` and `display`. -/
def reorder (processed : Obj) : Obj :=
  setF (setF ((keys processed).foldl (reorderStep processed) (reorderSeed processed))
          "location" (getF processed "location"))
    "display" (getF processed "display")

/-- `simplifyType` (src/simplify.ts lines 1–25): classify, then normalize the
property order. -/
def simplifyType (type : Obj) : Except String Obj :=
  Except.map reorder (simplifyTypeHelper type)

/-- `processType` (src/index.ts lines 141–165): classify with the pipeline's
own helper, normalize the property order, and return a one-element batch. -/
def processType (type : Obj) : Except String (List Obj) :=
  Except.map (fun processed => [reorder processed]) (processTypeHelper type)

/-- Test for the `undefined` value. -/
def isUndef : Value → Bool
  | .undef => true
  | _ => false

/-- The keys that survive serialization (`JSON.stringify` drops exactly the
`undefined`-valued fields), in output order. -/
def outputKeys (o : Obj) : List String :=
  (o.filter (fun kv => !isUndef kv.2)).map Prod.fst

/-- The line stripping of src/index.ts line 71: `chunk.replace(leading
open-bracket, "").replace(trailing close-bracket, "")`. -/
def stripLineBrackets (chunk : String) : String :=
  let s := match chunk.toList with
    | '[' :: cs => String.mk cs
    | _ => chunk
  if s.toList.getLast? = some ']' then String.mk s.toList.dropLast else s

/-- The state of the line-mode transform of src/index.ts lines 63–91: the
`sawError` flag plus the records pushed downstream so far. -/
structure LineState where
  sawError : Bool
  emitted : List Value
deriving Repr

/-- One `transform` callback of the line-mode stage (src/index.ts lines
66–91), abstracted over the external JSON parser: while no error has been
seen, a line that parses is pushed downstream; a line that fails to parse
sets `sawError` and is dropped; once `sawError` is set every line is
dropped. -/
def lineTransformStep (jsonParse : String → Except String Value)
    (st : LineState) (chunk : String) : LineState :=
  if st.sawError = false then
    match jsonParse (stripLineBrackets chunk) with
    | .ok obj => { st with emitted := st.emitted ++ [obj] }
    | .error _ => { st with sawError := true }
  else st

/-- Running the line-mode transform over a whole input, starting from the
clean state. -/
def lineTransformRun (jsonParse : String → Except String Value)
    (lines : List String) : LineState :=
  lines.foldl (lineTransformStep jsonParse) { sawError := false, emitted := [] }

/-! ## Basic laws of the object operations -/

theorem getF_setF (o : Obj) (k : String) (v : Value) (k2 : String) :
    getF (setF o k v) k2 = if k = k2 then v else getF o k2 := by
  induction o with
  | nil => simp [setF, getF]
  | cons kv rest ih =>
      obtain ⟨k1, v1⟩ := kv
      by_cases h1 : k1 = k
      · subst h1
        by_cases h2 : k1 = k2 <;> simp [setF, getF, h2]
      · by_cases h2 : k1 = k2
        · subst h2
          have hne : k ≠ k1 := fun h => h1 h.symm
          simp [setF, getF, h1, hne, ih]
        · simp [setF, getF, h1, h2, ih]

theorem getF_setF_self (o : Obj) (k : String) (v : Value) :
    getF (setF o k v) k = v := by
  simp [getF_setF]

theorem getF_setF_ne (o : Obj) (k : String) (v : Value) (k2 : String)
    (h : k ≠ k2) : getF (setF o k v) k2 = getF o k2 := by
  simp [getF_setF, h]

theorem mem_keys_setF (o : Obj) (k : String) (v : Value) (k2 : String) :
    k2 ∈ keys (setF o k v) ↔ k2 ∈ keys o ∨ k2 = k := by
  induction o with
  | nil => simp [setF, keys]
  | cons kv rest ih =>
      obtain ⟨k1, v1⟩ := kv
      by_cases h1 : k1 = k
      · subst h1
        simp [setF, keys]
        tauto
      · simp [setF, keys, h1] at ih ⊢
        tauto

theorem nodup_keys_setF (o : Obj) (k : String) (v : Value)
    (h : (keys o).Nodup) : (keys (setF o k v)).Nodup := by
  induction o with
  | nil => simp [setF, keys]
  | cons kv rest ih =>
      obtain ⟨k1, v1⟩ := kv
      simp only [keys, List.map_cons, List.nodup_cons] at h
      by_cases h1 : k1 = k
      · subst h1
        simpa [setF, keys] using h
      · have := ih h.2
        simp only [setF, if_neg h1, keys, List.map_cons, List.nodup_cons]
        refine ⟨fun hmem => ?_, this⟩
        rcases (mem_keys_setF rest k v k1).mp hmem with hh | hh
        · exact h.1 hh
        · exact h1 hh

theorem getF_eq_undef_of_not_mem_keys (o : Obj) (k : String)
    (h : k ∉ keys o) : getF o k = .undef := by
  induction o with
  | nil => rfl
  | cons kv rest ih =>
      obtain ⟨k1, v1⟩ := kv
      simp only [keys, List.map_cons, List.mem_cons, not_or] at h
      have hne : k1 ≠ k := fun h' => h.1 h'.symm
      simp [getF, hne, ih h.2]

theorem setF_eq_self (o : Obj) (k : String) (v : Value)
    (hmem : k ∈ keys o) (hval : getF o k = v) : setF o k v = o := by
  induction o with
  | nil => simp [keys] at hmem
  | cons kv rest ih =>
      obtain ⟨k1, v1⟩ := kv
      by_cases h1 : k1 = k
      · subst h1
        have hv : v1 = v := by simpa [getF] using hval
        subst hv
        simp [setF]
      · simp only [keys, List.map_cons, List.mem_cons] at hmem
        rcases hmem with hh | hh
        · exact absurd hh.symm h1
        · have hne : k1 ≠ k := h1
          simp only [getF, if_neg hne] at hval
          simp [setF, hne, ih hh hval]

theorem getF_spreadOnto_of_not_mem (o acc : Obj) (k : String)
    (h : k ∉ keys o) : getF (spreadOnto acc o) k = getF acc k := by
  induction o generalizing acc with
  | nil => rfl
  | cons kv rest ih =>
      obtain ⟨k1, v1⟩ := kv
      simp only [keys, List.map_cons, List.mem_cons, not_or] at h
      have hne : k1 ≠ k := fun h' => h.1 h'.symm
      calc getF (spreadOnto (setF acc k1 v1) rest) k
          = getF (setF acc k1 v1) k := ih (setF acc k1 v1) h.2
        _ = getF acc k := getF_setF_ne acc k1 v1 k hne

theorem getF_spreadOnto_of_mem (o acc : Obj) (k : String)
    (hnd : (keys o).Nodup) (h : k ∈ keys o) :
    getF (spreadOnto acc o) k = getF o k := by
  induction o generalizing acc with
  | nil => simp [keys] at h
  | cons kv rest ih =>
      obtain ⟨k1, v1⟩ := kv
      simp only [keys, List.map_cons, List.nodup_cons] at hnd
      by_cases h1 : k1 = k
      · subst h1
        have hnotin : k1 ∉ keys rest := hnd.1
        calc getF (spreadOnto (setF acc k1 v1) rest) k1
            = getF (setF acc k1 v1) k1 := getF_spreadOnto_of_not_mem rest _ k1 hnotin
          _ = v1 := getF_setF_self acc k1 v1
          _ = getF ((k1, v1) :: rest) k1 := by simp [getF]
      · simp only [keys, List.map_cons, List.mem_cons] at h
        rcases h with hh | hh
        · exact absurd hh.symm h1
        · calc getF (spreadOnto (setF acc k1 v1) rest) k
              = getF rest k := ih _ hnd.2 hh
            _ = getF ((k1, v1) :: rest) k := by simp [getF, h1]

theorem mem_keys_spreadOnto (o acc : Obj) (k : String) :
    k ∈ keys (spreadOnto acc o) ↔ k ∈ keys acc ∨ k ∈ keys o := by
  induction o generalizing acc with
  | nil => simp [spreadOnto, keys]
  | cons kv rest ih =>
      obtain ⟨k1, v1⟩ := kv
      have hstep : spreadOnto acc ((k1, v1) :: rest) = spreadOnto (setF acc k1 v1) rest := rfl
      rw [hstep, ih, mem_keys_setF]
      simp only [keys, List.map_cons, List.mem_cons]
      tauto

theorem nodup_keys_spreadOnto (o acc : Obj)
    (h : (keys acc).Nodup) : (keys (spreadOnto acc o)).Nodup := by
  induction o generalizing acc with
  | nil => exact h
  | cons kv rest ih => exact ih (setF acc kv.1 kv.2) (nodup_keys_setF acc kv.1 kv.2 h)

/-- An entry that can neither introduce nor overwrite the key `k`. -/
def entryAvoids (k : String) : Entry → Prop
  | .field k2 _ => k2 ≠ k
  | .spread o => k ∉ keys o

theorem getF_foldl_applyEntry_of_avoids (es : List Entry) (acc : Obj) (k : String)
    (h : ∀ e ∈ es, entryAvoids k e) :
    getF (es.foldl applyEntry acc) k = getF acc k := by
  induction es generalizing acc with
  | nil => rfl
  | cons e rest ih =>
      have hrest : ∀ e' ∈ rest, entryAvoids k e' := fun e' he' => h e' (List.mem_cons_of_mem e he')
      have he : entryAvoids k e := h e (List.mem_cons_self e rest)
      rw [List.foldl_cons, ih (applyEntry acc e) hrest]
      cases e with
      | field k2 v => exact getF_setF_ne acc k2 v k he
      | spread o => exact getF_spreadOnto_of_not_mem o acc k he

theorem nodup_keys_foldl_applyEntry (es : List Entry) (acc : Obj)
    (h : (keys acc).Nodup) : (keys (es.foldl applyEntry acc)).Nodup := by
  induction es generalizing acc with
  | nil => exact h
  | cons e rest ih =>
      refine ih (applyEntry acc e) ?_
      cases e with
      | field k2 v => exact nodup_keys_setF acc k2 v h
      | spread o => exact nodup_keys_spreadOnto o acc h

theorem objLit_keys_nodup (es : List Entry) : (keys (objLit es)).Nodup :=
  nodup_keys_foldl_applyEntry es [] (by simp [keys])

theorem mem_keys_applyEntry (acc : Obj) (e : Entry) (k : String) :
    k ∈ keys (applyEntry acc e) ↔
      k ∈ keys acc ∨ (match e with
        | .field k2 _ => k = k2
        | .spread o => k ∈ keys o) := by
  cases e with
  | field k2 v => simpa [applyEntry] using mem_keys_setF acc k2 v k
  | spread o => simpa [applyEntry] using mem_keys_spreadOnto o acc k

/-! ## What preprocessing does to each field -/

/-- The keys written by the preprocessing steps. -/
def preKeys : List String :=
  ["name", "symbolName", "destructuringPattern", "referenceLocation",
   "firstDeclaration", "location", "flags", "display", "recursionId"]

theorem getF_preprocess_of_untouched (raw : Obj) (k : String) (h : k ∉ preKeys) :
    getF (preprocess raw).type k = getF raw k := by
  simp only [preKeys, List.mem_cons, List.not_mem_nil, or_false, not_or] at h
  obtain ⟨h1, h2, h3, h4, h5, h6, h7, h8, h9⟩ := h
  simp only [preprocess]
  rw [getF_setF_ne _ _ _ _ (Ne.symm h9), getF_setF_ne _ _ _ _ (Ne.symm h8),
      getF_setF_ne _ _ _ _ (Ne.symm h7), getF_setF_ne _ _ _ _ (Ne.symm h6),
      getF_setF_ne _ _ _ _ (Ne.symm h5), getF_setF_ne _ _ _ _ (Ne.symm h4),
      getF_setF_ne _ _ _ _ (Ne.symm h3), getF_setF_ne _ _ _ _ (Ne.symm h2),
      getF_setF_ne _ _ _ _ (Ne.symm h1)]

theorem preprocess_flags (raw : Obj) : (preprocess raw).flags = getF raw "flags" := by
  simp only [preprocess]
  rw [getF_setF_ne _ _ _ _ (by decide), getF_setF_ne _ _ _ _ (by decide),
      getF_setF_ne _ _ _ _ (by decide), getF_setF_ne _ _ _ _ (by decide),
      getF_setF_ne _ _ _ _ (by decide), getF_setF_ne _ _ _ _ (by decide)]

theorem preprocess_display (raw : Obj) : (preprocess raw).display = getF raw "display" := by
  simp only [preprocess]
  rw [getF_setF_ne _ _ _ _ (by decide), getF_setF_ne _ _ _ _ (by decide),
      getF_setF_ne _ _ _ _ (by decide), getF_setF_ne _ _ _ _ (by decide),
      getF_setF_ne _ _ _ _ (by decide), getF_setF_ne _ _ _ _ (by decide),
      getF_setF_ne _ _ _ _ (by decide)]

theorem preprocess_isDestructuring (raw : Obj) :
    (preprocess raw).isDestructuring = truthy (getF raw "destructuringPattern") := by
  simp only [preprocess]
  rw [getF_setF_ne _ _ _ _ (by decide), getF_setF_ne _ _ _ _ (by decide)]

/-- The resolved node: first non-nullish of the three location candidates. -/
def locationNode (raw : Obj) : Value :=
  jsCoalesce (getF raw "destructuringPattern")
    (jsCoalesce (getF raw "referenceLocation") (getF raw "firstDeclaration"))

theorem preprocess_location (raw : Obj) :
    getF (preprocess raw).type "location" =
      jsAnd (locationNode raw) (locationFrom (locationNode raw)) := by
  simp only [preprocess, locationNode]
  rw [getF_setF_ne _ _ _ _ (by decide), getF_setF_ne _ _ _ _ (by decide),
      getF_setF_ne _ _ _ _ (by decide), getF_setF_self]
  rw [getF_setF_ne _ _ _ _ (by decide), getF_setF_ne _ _ _ _ (by decide),
      getF_setF_ne _ _ _ _ (by decide), getF_setF_ne _ _ _ _ (by decide),
      getF_setF_ne _ _ _ _ (by decide), getF_setF_ne _ _ _ _ (by decide)]

theorem preprocess_name (raw : Obj) :
    getF (preprocess raw).type "name" = getF raw "symbolName" := by
  simp only [preprocess]
  rw [getF_setF_ne _ _ _ _ (by decide), getF_setF_ne _ _ _ _ (by decide),
      getF_setF_ne _ _ _ _ (by decide), getF_setF_ne _ _ _ _ (by decide),
      getF_setF_ne _ _ _ _ (by decide), getF_setF_ne _ _ _ _ (by decide),
      getF_setF_ne _ _ _ _ (by decide), getF_setF_ne _ _ _ _ (by decide),
      getF_setF_self]

theorem preprocess_dP (raw : Obj) :
    getF (preprocess raw).type "destructuringPattern" = .undef := by
  simp only [preprocess]
  rw [getF_setF_ne _ _ _ _ (by decide), getF_setF_ne _ _ _ _ (by decide),
      getF_setF_ne _ _ _ _ (by decide), getF_setF_ne _ _ _ _ (by decide),
      getF_setF_ne _ _ _ _ (by decide), getF_setF_ne _ _ _ _ (by decide),
      getF_setF_self]

theorem preprocess_rL (raw : Obj) :
    getF (preprocess raw).type "referenceLocation" = .undef := by
  simp only [preprocess]
  rw [getF_setF_ne _ _ _ _ (by decide), getF_setF_ne _ _ _ _ (by decide),
      getF_setF_ne _ _ _ _ (by decide), getF_setF_ne _ _ _ _ (by decide),
      getF_setF_ne _ _ _ _ (by decide), getF_setF_self]

theorem preprocess_fD (raw : Obj) :
    getF (preprocess raw).type "firstDeclaration" = .undef := by
  simp only [preprocess]
  rw [getF_setF_ne _ _ _ _ (by decide), getF_setF_ne _ _ _ _ (by decide),
      getF_setF_ne _ _ _ _ (by decide), getF_setF_ne _ _ _ _ (by decide),
      getF_setF_self]

theorem mem_keys_preprocess (raw : Obj) (k : String) :
    k ∈ keys (preprocess raw).type ↔ k ∈ keys raw ∨ k ∈ preKeys := by
  simp only [preprocess, mem_keys_setF, preKeys, List.mem_cons, List.not_mem_nil]
  tauto

theorem nodup_keys_preprocess (raw : Obj) (h : (keys raw).Nodup) :
    (keys (preprocess raw).type).Nodup := by
  simp only [preprocess]
  apply nodup_keys_setF
  apply nodup_keys_setF
  apply nodup_keys_setF
  apply nodup_keys_setF
  apply nodup_keys_setF
  apply nodup_keys_setF
  apply nodup_keys_setF
  apply nodup_keys_setF
  apply nodup_keys_setF
  exact h

/-! ## The property-order normalization never changes a field's value -/

theorem getF_foldl_reorderStep_of_agree (p : Obj) (ks : List String) (acc : Obj)
    (k : String) (h : getF acc k = getF p k) :
    getF (ks.foldl (reorderStep p) acc) k = getF p k := by
  induction ks generalizing acc with
  | nil => exact h
  | cons k2 rest ih =>
      refine ih (reorderStep p acc k2) ?_
      unfold reorderStep
      by_cases hcond : truthy (getF acc k2) = false ∧ k2 ≠ "location" ∧ k2 ≠ "display"
      · rw [if_pos hcond]
        by_cases hk : k2 = k
        · subst hk; exact getF_setF_self acc k2 (getF p k2)
        · rw [getF_setF_ne _ _ _ _ hk]; exact h
      · rw [if_neg hcond]; exact h

theorem getF_foldl_reorderStep_of_not_mem (p : Obj) (ks : List String) (acc : Obj)
    (k : String) (hmem : k ∉ ks) :
    getF (ks.foldl (reorderStep p) acc) k = getF acc k := by
  induction ks generalizing acc with
  | nil => rfl
  | cons k2 rest ih =>
      simp only [List.mem_cons, not_or] at hmem
      rw [List.foldl_cons, ih (reorderStep p acc k2) hmem.2]
      unfold reorderStep
      by_cases hcond : truthy (getF acc k2) = false ∧ k2 ≠ "location" ∧ k2 ≠ "display"
      · rw [if_pos hcond, getF_setF_ne _ _ _ _ (fun h' => hmem.1 h'.symm)]
      · rw [if_neg hcond]

theorem getF_foldl_reorderStep_of_mem (p : Obj) (ks : List String) (acc : Obj)
    (k : String) (hk1 : k ≠ "location") (hk2 : k ≠ "display") (hmem : k ∈ ks)
    (h : getF acc k = getF p k ∨ getF acc k = Value.undef) :
    getF (ks.foldl (reorderStep p) acc) k = getF p k := by
  induction ks generalizing acc with
  | nil => simp at hmem
  | cons k2 rest ih =>
      by_cases hk : k2 = k
      · subst hk
        have hstep : getF (reorderStep p acc k2) k2 = getF p k2 := by
          unfold reorderStep
          by_cases hcond : truthy (getF acc k2) = false ∧ k2 ≠ "location" ∧ k2 ≠ "display"
          · rw [if_pos hcond]; exact getF_setF_self acc k2 (getF p k2)
          · rw [if_neg hcond]
            rcases h with he | hu
            · exact he
            · exact absurd ⟨by rw [hu]; rfl, hk1, hk2⟩ hcond
        exact getF_foldl_reorderStep_of_agree p rest _ k2 hstep
      · have hmem2 : k ∈ rest := by
          rcases List.mem_cons.mp hmem with hh | hh
          · exact absurd hh.symm hk
          · exact hh
        refine ih (reorderStep p acc k2) hmem2 ?_
        have hpres : getF (reorderStep p acc k2) k = getF acc k := by
          unfold reorderStep
          by_cases hcond : truthy (getF acc k2) = false ∧ k2 ≠ "location" ∧ k2 ≠ "display"
          · rw [if_pos hcond, getF_setF_ne _ _ _ _ hk]
          · rw [if_neg hcond]
        rw [hpres]; exact h

theorem getF_reorderSeed (p : Obj) (k : String) :
    getF (reorderSeed p) k = getF p k ∨ getF (reorderSeed p) k = Value.undef := by
  unfold reorderSeed
  simp only [getF]
  split_ifs with h1 h2 h3 h4 h5 h6
  · exact Or.inl (congrArg (getF p) h1)
  · exact Or.inl (congrArg (getF p) h2)
  · exact Or.inl (congrArg (getF p) h3)
  · exact Or.inl (congrArg (getF p) h4)
  · exact Or.inl (congrArg (getF p) h5)
  · exact Or.inl (congrArg (getF p) h6)
  · exact Or.inr rfl

/-- The property-order pass is a pure reordering: it never changes the value
observed at any key. -/
theorem getF_reorder (p : Obj) (k : String) : getF (reorder p) k = getF p k := by
  unfold reorder
  by_cases hd : k = "display"
  · subst hd; rw [getF_setF_self]
  · rw [getF_setF_ne _ _ _ _ (fun h' => hd h'.symm)]
    by_cases hl : k = "location"
    · subst hl; rw [getF_setF_self]
    · rw [getF_setF_ne _ _ _ _ (fun h' => hl h'.symm)]
      by_cases hmem : k ∈ keys p
      · exact getF_foldl_reorderStep_of_mem p (keys p) _ k hl hd hmem
          (getF_reorderSeed p k)
      · rw [getF_foldl_reorderStep_of_not_mem p _ _ k hmem]
        rcases getF_reorderSeed p k with h | h
        · exact h
        · rw [h, getF_eq_undef_of_not_mem_keys p k hmem]

/-! ## Reading fields off a branch's object literal -/

theorem getF_objLit_field_head (k : String) (v : Value) (es : List Entry)
    (h : ∀ e ∈ es, entryAvoids k e) :
    getF (objLit (.field k v :: es)) k = v := by
  have hfold : objLit (.field k v :: es) = es.foldl applyEntry (applyEntry [] (.field k v)) := rfl
  rw [hfold, getF_foldl_applyEntry_of_avoids es _ k h]
  simp [applyEntry, setF, getF]

/-! ## C1: rule priority -/

/-- C1: classification rules fire in the fixed priority order and the first
matching rule alone determines the kind.  For raw records of the data model
(which do not carry the output-reserved field `kind`): a record whose
`flags` contain `Object` and whose `intrinsicName` is present is classified
`Intrinsic` (rule 1 outranks the Object-flag rule 21), and a record whose
`flags` contain `Object` and whose `unionTypes` is present (no rule-1 match)
is classified `Union` or `AliasedUnion` (rule 2 outranks rule 21). -/
theorem c1_priority_first_rule_wins :
    ∀ raw : Obj, "kind" ∉ keys raw →
      (jsIncludes (getF raw "flags") "Object" = .ok true →
        truthy (getF raw "intrinsicName") = true →
        ∃ out, simplifyType raw = .ok out ∧ getF out "kind" = .vStr "Intrinsic") ∧
      (jsIncludes (getF raw "flags") "Object" = .ok true →
        truthy (getF raw "intrinsicName") = false →
        truthy (getF raw "unionTypes") = true →
        ∃ out, simplifyType raw = .ok out ∧
          (getF out "kind" = .vStr "Union" ∨ getF out "kind" = .vStr "AliasedUnion")) := by
  intro raw hkind
  have hkpre : "kind" ∉ keys (preprocess raw).type := by
    rw [mem_keys_preprocess]
    rintro (h | h)
    · exact hkind h
    · revert h; decide
  have hint : getF (preprocess raw).type "intrinsicName" = getF raw "intrinsicName" :=
    getF_preprocess_of_untouched raw _ (by decide)
  have huni : getF (preprocess raw).type "unionTypes" = getF raw "unionTypes" :=
    getF_preprocess_of_untouched raw _ (by decide)
  constructor
  · intro _ htrue
    have hhelp : simplifyTypeHelper raw = .ok (objLit
        [.field "kind" (.vStr "Intrinsic"), .spread (preprocess raw).type,
         .field "name" (getF raw "intrinsicName"), .field "intrinsicName" .undef]) := by
      simp only [simplifyTypeHelper, simplifyRules]
      rw [hint, htrue]
      simp
    unfold simplifyType
    rw [hhelp]
    simp only [Except.map]
    refine ⟨_, rfl, ?_⟩
    rw [getF_reorder, getF_objLit_field_head]
    intro e he
    simp only [List.mem_cons, List.not_mem_nil, or_false] at he
    rcases he with rfl | rfl | rfl
    · exact hkpre
    · show ("name" : String) ≠ "kind"
      decide
    · show ("intrinsicName" : String) ≠ "kind"
      decide
  · intro _ hfalse htrue
    have hhelp : simplifyTypeHelper raw = .ok (objLit
        [.field "kind" (.vStr (makeAliasedKindIfNamed (preprocess raw).type "Union")),
         .field "count" (getProp (getF raw "unionTypes") "length"),
         .field "types" (getF raw "unionTypes"),
         .spread (preprocess raw).type, .field "unionTypes" .undef]) := by
      simp only [simplifyTypeHelper, simplifyRules]
      rw [hint, hfalse, huni, htrue]
      simp
    unfold simplifyType
    rw [hhelp]
    simp only [Except.map]
    refine ⟨_, rfl, ?_⟩
    have havoid : ∀ e ∈ [Entry.field "count" (getProp (getF raw "unionTypes") "length"),
         Entry.field "types" (getF raw "unionTypes"),
         Entry.spread (preprocess raw).type, Entry.field "unionTypes" Value.undef],
        entryAvoids "kind" e := by
      intro e he
      simp only [List.mem_cons, List.not_mem_nil, or_false] at he
      rcases he with rfl | rfl | rfl | rfl
      · show ("count" : String) ≠ "kind"
        decide
      · show ("types" : String) ≠ "kind"
        decide
      · exact hkpre
      · show ("unionTypes" : String) ≠ "kind"
        decide
    rw [getF_reorder, getF_objLit_field_head _ _ _ havoid]
    unfold makeAliasedKindIfNamed
    by_cases hname : truthy (getF (preprocess raw).type "name") = true
    · rw [if_pos hname]; right; rfl
    · rw [if_neg hname]; left; rfl

/-- Witness for C1 at the spec's own examples. -/
theorem c1_priority_first_rule_wins_witness :
    (∃ out, simplifyType [("id", Value.vNum 7), ("flags", Value.vArr [Value.vStr "Object"]),
        ("intrinsicName", Value.vStr "any")] = .ok out ∧
      getF out "kind" = .vStr "Intrinsic") ∧
    (∃ out, simplifyType [("id", Value.vNum 1), ("symbolName", Value.vStr "Foo"),
        ("flags", Value.vArr [Value.vStr "Object"]),
        ("unionTypes", Value.vArr [Value.vNum 2, Value.vNum 3])] = .ok out ∧
      (getF out "kind" = .vStr "Union" ∨ getF out "kind" = .vStr "AliasedUnion")) :=
  ⟨(c1_priority_first_rule_wins _ (by decide)).1 rfl rfl,
   (c1_priority_first_rule_wins _ (by decide)).2 rfl rfl rfl⟩

theorem getF_objLit_field_at (es1 : List Entry) (k : String) (v : Value) (es2 : List Entry)
    (h : ∀ e ∈ es2, entryAvoids k e) :
    getF (objLit (es1 ++ .field k v :: es2)) k = v := by
  have hfold : objLit (es1 ++ .field k v :: es2) =
      es2.foldl applyEntry (applyEntry (es1.foldl applyEntry []) (.field k v)) := by
    simp [objLit, List.foldl_append]
  rw [hfold, getF_foldl_applyEntry_of_avoids es2 _ k h]
  exact getF_setF_self _ _ _

/-! ## C8: conditional-type sentinel handling -/

/-- C8: for a record classified by the conditional-type rule (rule 7:
`conditionalCheckType` truthy, rules 1–6 unmatched), each numeric branch
field is kept exactly when it is nonnegative and is `undefined` (hence
dropped from the serialized output) when it is negative. -/
theorem c8_conditional_sentinels :
    ∀ (raw : Obj) (a b : Int),
      truthy (getF raw "intrinsicName") = false →
      truthy (getF raw "unionTypes") = false →
      truthy (getF raw "intersectionTypes") = false →
      truthy (getF raw "indexedAccessObjectType") = false →
      truthy (getF raw "keyofType") = false →
      truthy (getF raw "isTuple") = false →
      truthy (getF raw "conditionalCheckType") = true →
      getF raw "conditionalTrueType" = .vNum a →
      getF raw "conditionalFalseType" = .vNum b →
      ∃ out, simplifyType raw = .ok out ∧
        getF out "conditionalTrueType" = (if a < 0 then Value.undef else Value.vNum a) ∧
        getF out "conditionalFalseType" = (if b < 0 then Value.undef else Value.vNum b) := by
  intro raw a b h1 h2 h3 h4 h5 h6 h7 hva hvb
  have t1 : getF (preprocess raw).type "intrinsicName" = getF raw "intrinsicName" :=
    getF_preprocess_of_untouched raw _ (by decide)
  have t2 : getF (preprocess raw).type "unionTypes" = getF raw "unionTypes" :=
    getF_preprocess_of_untouched raw _ (by decide)
  have t3 : getF (preprocess raw).type "intersectionTypes" = getF raw "intersectionTypes" :=
    getF_preprocess_of_untouched raw _ (by decide)
  have t4 : getF (preprocess raw).type "indexedAccessObjectType" = getF raw "indexedAccessObjectType" :=
    getF_preprocess_of_untouched raw _ (by decide)
  have t5 : getF (preprocess raw).type "keyofType" = getF raw "keyofType" :=
    getF_preprocess_of_untouched raw _ (by decide)
  have t6 : getF (preprocess raw).type "isTuple" = getF raw "isTuple" :=
    getF_preprocess_of_untouched raw _ (by decide)
  have t7 : getF (preprocess raw).type "conditionalCheckType" = getF raw "conditionalCheckType" :=
    getF_preprocess_of_untouched raw _ (by decide)
  have ta : getF (preprocess raw).type "conditionalTrueType" = .vNum a := by
    rw [getF_preprocess_of_untouched raw _ (by decide)]; exact hva
  have tb : getF (preprocess raw).type "conditionalFalseType" = .vNum b := by
    rw [getF_preprocess_of_untouched raw _ (by decide)]; exact hvb
  have hhelp : simplifyTypeHelper raw = .ok (objLit
      [.field "kind" (.vStr (makeAliasedKindIfNamed (preprocess raw).type "ConditionalType")),
       .spread (preprocess raw).type,
       .field "conditionalTrueType" (if jsLtZero (.vNum a) then .undef else .vNum a),
       .field "conditionalFalseType" (if jsLtZero (.vNum b) then .undef else .vNum b)]) := by
    simp only [simplifyTypeHelper, simplifyRules]
    rw [t1, h1, t2, h2, t3, h3, t4, h4, t5, h5, t6, h6, t7, h7, ta, tb]
    simp
  unfold simplifyType
  rw [hhelp]
  simp only [Except.map]
  refine ⟨_, rfl, ?_, ?_⟩
  · rw [getF_reorder]
    have hat := getF_objLit_field_at
        [Entry.field "kind" (.vStr (makeAliasedKindIfNamed (preprocess raw).type "ConditionalType")),
         Entry.spread (preprocess raw).type]
        "conditionalTrueType" (if jsLtZero (.vNum a) then .undef else .vNum a)
        [Entry.field "conditionalFalseType" (if jsLtZero (.vNum b) then .undef else .vNum b)]
        (by intro e he
            simp only [List.mem_cons, List.not_mem_nil, or_false] at he
            subst he
            show ("conditionalFalseType" : String) ≠ "conditionalTrueType"
            decide)
    simp only [List.cons_append, List.nil_append] at hat
    rw [hat, jsLtZero]
    by_cases hlt : a < 0
    · simp [hlt]
    · simp [hlt]
  · rw [getF_reorder]
    have hat := getF_objLit_field_at
        [Entry.field "kind" (.vStr (makeAliasedKindIfNamed (preprocess raw).type "ConditionalType")),
         Entry.spread (preprocess raw).type,
         Entry.field "conditionalTrueType" (if jsLtZero (.vNum a) then .undef else .vNum a)]
        "conditionalFalseType" (if jsLtZero (.vNum b) then .undef else .vNum b)
        [] (by intro e he; simp at he)
    simp only [List.cons_append, List.nil_append] at hat
    rw [hat, jsLtZero]
    by_cases hlt : b < 0
    · simp [hlt]
    · simp [hlt]

/-- Witness for C8: `conditionalTrueType = -1` is dropped while
`conditionalFalseType = 5` is preserved. -/
theorem c8_conditional_sentinels_witness :
    ∃ out, simplifyType [("id", Value.vNum 1), ("conditionalCheckType", Value.vNum 9),
        ("conditionalTrueType", Value.vNum (-1)), ("conditionalFalseType", Value.vNum 5)]
      = .ok out ∧
      getF out "conditionalTrueType" = Value.undef ∧
      getF out "conditionalFalseType" = Value.vNum 5 := by
  have h := c8_conditional_sentinels
    [("id", Value.vNum 1), ("conditionalCheckType", Value.vNum 9),
     ("conditionalTrueType", Value.vNum (-1)), ("conditionalFalseType", Value.vNum 5)]
    (-1) 5 rfl rfl rfl rfl rfl rfl rfl rfl rfl
  simpa using h

/-! ## C4: the Aliased prefix -/

/-- C4: a record reaching the union rule (rule 2) gets kind `AliasedUnion`
exactly when its name (from `symbolName`) is truthy at evaluation time, and
`Union` otherwise; either way the output carries `count` (the length of
`unionTypes`) and `types` (the member list).  Raw records of the data model
do not use the output-reserved fields `kind`, `count`, `types`. -/
theorem c4_aliased_iff_named :
    ∀ (raw : Obj) (ts : List Value),
      "kind" ∉ keys raw → "count" ∉ keys raw → "types" ∉ keys raw →
      truthy (getF raw "intrinsicName") = false →
      getF raw "unionTypes" = .vArr ts →
      (truthy (getF raw "symbolName") = true →
        ∃ out, simplifyType raw = .ok out ∧
          getF out "kind" = .vStr "AliasedUnion" ∧
          getF out "count" = .vNum ts.length ∧
          getF out "types" = .vArr ts) ∧
      (truthy (getF raw "symbolName") = false →
        ∃ out, simplifyType raw = .ok out ∧
          getF out "kind" = .vStr "Union" ∧
          getF out "count" = .vNum ts.length ∧
          getF out "types" = .vArr ts) := by
  intro raw ts hkind hcount htypes h1 hvu
  have hkpre : "kind" ∉ keys (preprocess raw).type := by
    rw [mem_keys_preprocess]
    rintro (h | h)
    · exact hkind h
    · revert h; decide
  have hcpre : "count" ∉ keys (preprocess raw).type := by
    rw [mem_keys_preprocess]
    rintro (h | h)
    · exact hcount h
    · revert h; decide
  have htpre : "types" ∉ keys (preprocess raw).type := by
    rw [mem_keys_preprocess]
    rintro (h | h)
    · exact htypes h
    · revert h; decide
  have hint : getF (preprocess raw).type "intrinsicName" = getF raw "intrinsicName" :=
    getF_preprocess_of_untouched raw _ (by decide)
  have huni : getF (preprocess raw).type "unionTypes" = .vArr ts := by
    rw [getF_preprocess_of_untouched raw _ (by decide)]; exact hvu
  have hhelp : simplifyTypeHelper raw = .ok (objLit
      [.field "kind" (.vStr (makeAliasedKindIfNamed (preprocess raw).type "Union")),
       .field "count" (getProp (.vArr ts) "length"),
       .field "types" (.vArr ts),
       .spread (preprocess raw).type, .field "unionTypes" .undef]) := by
    simp only [simplifyTypeHelper, simplifyRules]
    rw [hint, h1, huni]
    simp [truthy]
  have hfkind : getF (objLit
      [.field "kind" (.vStr (makeAliasedKindIfNamed (preprocess raw).type "Union")),
       .field "count" (getProp (.vArr ts) "length"),
       .field "types" (.vArr ts),
       .spread (preprocess raw).type, .field "unionTypes" .undef]) "kind" =
      .vStr (makeAliasedKindIfNamed (preprocess raw).type "Union") := by
    rw [getF_objLit_field_head]
    intro e he
    simp only [List.mem_cons, List.not_mem_nil, or_false] at he
    rcases he with rfl | rfl | rfl | rfl
    · show ("count" : String) ≠ "kind"
      decide
    · show ("types" : String) ≠ "kind"
      decide
    · exact hkpre
    · show ("unionTypes" : String) ≠ "kind"
      decide
  have hfcount : getF (objLit
      [.field "kind" (.vStr (makeAliasedKindIfNamed (preprocess raw).type "Union")),
       .field "count" (getProp (.vArr ts) "length"),
       .field "types" (.vArr ts),
       .spread (preprocess raw).type, .field "unionTypes" .undef]) "count" =
      .vNum ts.length := by
    have hat := getF_objLit_field_at
        [Entry.field "kind" (.vStr (makeAliasedKindIfNamed (preprocess raw).type "Union"))]
        "count" (getProp (.vArr ts) "length")
        [Entry.field "types" (.vArr ts), Entry.spread (preprocess raw).type,
         Entry.field "unionTypes" Value.undef]
        (by intro e he
            simp only [List.mem_cons, List.not_mem_nil, or_false] at he
            rcases he with rfl | rfl | rfl
            · show ("types" : String) ≠ "count"
              decide
            · exact hcpre
            · show ("unionTypes" : String) ≠ "count"
              decide)
    simp only [List.cons_append, List.nil_append] at hat
    rw [hat]
    rfl
  have hftypes : getF (objLit
      [.field "kind" (.vStr (makeAliasedKindIfNamed (preprocess raw).type "Union")),
       .field "count" (getProp (.vArr ts) "length"),
       .field "types" (.vArr ts),
       .spread (preprocess raw).type, .field "unionTypes" .undef]) "types" =
      .vArr ts := by
    have hat := getF_objLit_field_at
        [Entry.field "kind" (.vStr (makeAliasedKindIfNamed (preprocess raw).type "Union")),
         Entry.field "count" (getProp (.vArr ts) "length")]
        "types" (.vArr ts)
        [Entry.spread (preprocess raw).type, Entry.field "unionTypes" Value.undef]
        (by intro e he
            simp only [List.mem_cons, List.not_mem_nil, or_false] at he
            rcases he with rfl | rfl
            · exact htpre
            · show ("unionTypes" : String) ≠ "types"
              decide)
    simp only [List.cons_append, List.nil_append] at hat
    exact hat
  constructor
  · intro hname
    have hkval : makeAliasedKindIfNamed (preprocess raw).type "Union" = "AliasedUnion" := by
      unfold makeAliasedKindIfNamed
      rw [preprocess_name, hname]
      rfl
    unfold simplifyType
    rw [hhelp]
    simp only [Except.map]
    refine ⟨_, rfl, ?_, ?_, ?_⟩
    · rw [getF_reorder, hfkind, hkval]
    · rw [getF_reorder, hfcount]
    · rw [getF_reorder, hftypes]
  · intro hname
    have hkval : makeAliasedKindIfNamed (preprocess raw).type "Union" = "Union" := by
      unfold makeAliasedKindIfNamed
      rw [preprocess_name, hname]
      rfl
    unfold simplifyType
    rw [hhelp]
    simp only [Except.map]
    refine ⟨_, rfl, ?_, ?_, ?_⟩
    · rw [getF_reorder, hfkind, hkval]
    · rw [getF_reorder, hfcount]
    · rw [getF_reorder, hftypes]

/-- Witness for C4: the spec's union example with and without the name. -/
theorem c4_aliased_iff_named_witness :
    (∃ out, simplifyType [("id", Value.vNum 1), ("symbolName", Value.vStr "Foo"),
        ("flags", Value.vArr [Value.vStr "Object"]),
        ("unionTypes", Value.vArr [Value.vNum 2, Value.vNum 3])] = .ok out ∧
      getF out "kind" = .vStr "AliasedUnion" ∧
      getF out "count" = .vNum 2 ∧
      getF out "types" = .vArr [Value.vNum 2, Value.vNum 3]) ∧
    (∃ out, simplifyType [("id", Value.vNum 1),
        ("flags", Value.vArr [Value.vStr "Object"]),
        ("unionTypes", Value.vArr [Value.vNum 2, Value.vNum 3])] = .ok out ∧
      getF out "kind" = .vStr "Union" ∧
      getF out "count" = .vNum 2 ∧
      getF out "types" = .vArr [Value.vNum 2, Value.vNum 3]) :=
  ⟨(c4_aliased_iff_named
      [("id", Value.vNum 1), ("symbolName", Value.vStr "Foo"),
       ("flags", Value.vArr [Value.vStr "Object"]),
       ("unionTypes", Value.vArr [Value.vNum 2, Value.vNum 3])]
      [Value.vNum 2, Value.vNum 3]
      (by decide) (by decide) (by decide) rfl rfl).1 rfl,
   (c4_aliased_iff_named
      [("id", Value.vNum 1),
       ("flags", Value.vArr [Value.vStr "Object"]),
       ("unionTypes", Value.vArr [Value.vNum 2, Value.vNum 3])]
      [Value.vNum 2, Value.vNum 3]
      (by decide) (by decide) (by decide) rfl rfl).2 rfl⟩

theorem getF_objLit_from_spread (es1 : List Entry) (o : Obj) (es2 : List Entry) (k : String)
    (hnd : (keys o).Nodup)
    (h2 : ∀ e ∈ es2, entryAvoids k e)
    (h1 : getF (objLit es1) k = Value.undef) :
    getF (objLit (es1 ++ .spread o :: es2)) k = getF o k := by
  have hfold : objLit (es1 ++ .spread o :: es2) =
      es2.foldl applyEntry (spreadOnto (objLit es1) o) := by
    simp [objLit, List.foldl_append, applyEntry]
  rw [hfold, getF_foldl_applyEntry_of_avoids es2 _ k h2]
  by_cases hmem : k ∈ keys o
  · exact getF_spreadOnto_of_mem o _ k hnd hmem
  · rw [getF_spreadOnto_of_not_mem o _ k hmem, h1,
        getF_eq_undef_of_not_mem_keys o k hmem]

/-! ## C3: the GenericTypeAlias rule -/

/-- Counterexample to C3 as stated: on a record classified
`GenericTypeAlias` the raw `typeArguments` field is NOT absent from the
output — the rule's literal never clears it, so the spread carries it
through and its value appears under both `typeArguments` and
`aliasedTypeTypeArguments`. -/
theorem c3_counterexample :
    Except.map (fun out => getF out "kind")
      (simplifyType [("id", Value.vNum 1), ("aliasTypeArguments", Value.vArr [Value.vNum 9]),
        ("instantiatedType", Value.vNum 3),
        ("typeArguments", Value.vArr [Value.vNum 4, Value.vNum 5])]) =
      .ok (.vStr "GenericTypeAlias") ∧
    Except.map (fun out => getF out "typeArguments")
      (simplifyType [("id", Value.vNum 1), ("aliasTypeArguments", Value.vArr [Value.vNum 9]),
        ("instantiatedType", Value.vNum 3),
        ("typeArguments", Value.vArr [Value.vNum 4, Value.vNum 5])]) =
      .ok (.vArr [Value.vNum 4, Value.vNum 5]) :=
  ⟨rfl, rfl⟩

/-- C3 amended: on the `GenericTypeAlias` rule the output's `aliasedType` is
the raw `instantiatedType`, `aliasedTypeTypeArguments` is the raw
`typeArguments`, and `instantiatedType` is dropped; `typeArguments` itself,
however, is carried through unchanged (duplicated under the new name, not
renamed). -/
theorem c3_generic_type_alias :
    ∀ raw : Obj,
      "kind" ∉ keys raw → (keys raw).Nodup →
      truthy (getF raw "intrinsicName") = false →
      truthy (getF raw "unionTypes") = false →
      truthy (getF raw "intersectionTypes") = false →
      truthy (getF raw "indexedAccessObjectType") = false →
      truthy (getF raw "keyofType") = false →
      truthy (getF raw "isTuple") = false →
      truthy (getF raw "conditionalCheckType") = false →
      truthy (getF raw "substitutionBaseType") = false →
      truthy (getF raw "reverseMappedSourceType") = false →
      truthy (getF raw "aliasTypeArguments") = true →
      ∃ out, simplifyType raw = .ok out ∧
        getF out "kind" = .vStr "GenericTypeAlias" ∧
        getF out "aliasedType" = getF raw "instantiatedType" ∧
        getF out "aliasedTypeTypeArguments" = getF raw "typeArguments" ∧
        getF out "instantiatedType" = Value.undef ∧
        getF out "typeArguments" = getF raw "typeArguments" := by
  intro raw hkind hnd h1 h2 h3 h4 h5 h6 h7 h8 h9 h10
  have hkpre : "kind" ∉ keys (preprocess raw).type := by
    rw [mem_keys_preprocess]
    rintro (h | h)
    · exact hkind h
    · revert h; decide
  have hndpre : (keys (preprocess raw).type).Nodup := nodup_keys_preprocess raw hnd
  have t1 : getF (preprocess raw).type "intrinsicName" = getF raw "intrinsicName" :=
    getF_preprocess_of_untouched raw _ (by decide)
  have t2 : getF (preprocess raw).type "unionTypes" = getF raw "unionTypes" :=
    getF_preprocess_of_untouched raw _ (by decide)
  have t3 : getF (preprocess raw).type "intersectionTypes" = getF raw "intersectionTypes" :=
    getF_preprocess_of_untouched raw _ (by decide)
  have t4 : getF (preprocess raw).type "indexedAccessObjectType" = getF raw "indexedAccessObjectType" :=
    getF_preprocess_of_untouched raw _ (by decide)
  have t5 : getF (preprocess raw).type "keyofType" = getF raw "keyofType" :=
    getF_preprocess_of_untouched raw _ (by decide)
  have t6 : getF (preprocess raw).type "isTuple" = getF raw "isTuple" :=
    getF_preprocess_of_untouched raw _ (by decide)
  have t7 : getF (preprocess raw).type "conditionalCheckType" = getF raw "conditionalCheckType" :=
    getF_preprocess_of_untouched raw _ (by decide)
  have t8 : getF (preprocess raw).type "substitutionBaseType" = getF raw "substitutionBaseType" :=
    getF_preprocess_of_untouched raw _ (by decide)
  have t9 : getF (preprocess raw).type "reverseMappedSourceType" = getF raw "reverseMappedSourceType" :=
    getF_preprocess_of_untouched raw _ (by decide)
  have t10 : getF (preprocess raw).type "aliasTypeArguments" = getF raw "aliasTypeArguments" :=
    getF_preprocess_of_untouched raw _ (by decide)
  have tIT : getF (preprocess raw).type "instantiatedType" = getF raw "instantiatedType" :=
    getF_preprocess_of_untouched raw _ (by decide)
  have tTA : getF (preprocess raw).type "typeArguments" = getF raw "typeArguments" :=
    getF_preprocess_of_untouched raw _ (by decide)
  have hhelp : simplifyTypeHelper raw = .ok (objLit
      [.field "kind" (.vStr "GenericTypeAlias"), .spread (preprocess raw).type,
       .field "instantiatedType" .undef,
       .field "aliasedType" (getF raw "instantiatedType"),
       .field "aliasedTypeTypeArguments" (getF raw "typeArguments")]) := by
    simp only [simplifyTypeHelper, simplifyRules]
    rw [t1, h1, t2, h2, t3, h3, t4, h4, t5, h5, t6, h6, t7, h7, t8, h8, t9, h9, t10, h10,
        tIT, tTA]
    simp
  unfold simplifyType
  rw [hhelp]
  simp only [Except.map]
  refine ⟨_, rfl, ?_, ?_, ?_, ?_, ?_⟩
  · rw [getF_reorder, getF_objLit_field_head]
    intro e he
    simp only [List.mem_cons, List.not_mem_nil, or_false] at he
    rcases he with rfl | rfl | rfl | rfl
    · exact hkpre
    · show ("instantiatedType" : String) ≠ "kind"
      decide
    · show ("aliasedType" : String) ≠ "kind"
      decide
    · show ("aliasedTypeTypeArguments" : String) ≠ "kind"
      decide
  · rw [getF_reorder]
    have hat := getF_objLit_field_at
        [Entry.field "kind" (.vStr "GenericTypeAlias"), Entry.spread (preprocess raw).type,
         Entry.field "instantiatedType" Value.undef]
        "aliasedType" (getF raw "instantiatedType")
        [Entry.field "aliasedTypeTypeArguments" (getF raw "typeArguments")]
        (by intro e he
            simp only [List.mem_cons, List.not_mem_nil, or_false] at he
            subst he
            show ("aliasedTypeTypeArguments" : String) ≠ "aliasedType"
            decide)
    simp only [List.cons_append, List.nil_append] at hat
    exact hat
  · rw [getF_reorder]
    have hat := getF_objLit_field_at
        [Entry.field "kind" (.vStr "GenericTypeAlias"), Entry.spread (preprocess raw).type,
         Entry.field "instantiatedType" Value.undef,
         Entry.field "aliasedType" (getF raw "instantiatedType")]
        "aliasedTypeTypeArguments" (getF raw "typeArguments")
        [] (by intro e he; simp at he)
    simp only [List.cons_append, List.nil_append] at hat
    exact hat
  · rw [getF_reorder]
    have hat := getF_objLit_field_at
        [Entry.field "kind" (.vStr "GenericTypeAlias"), Entry.spread (preprocess raw).type]
        "instantiatedType" Value.undef
        [Entry.field "aliasedType" (getF raw "instantiatedType"),
         Entry.field "aliasedTypeTypeArguments" (getF raw "typeArguments")]
        (by intro e he
            simp only [List.mem_cons, List.not_mem_nil, or_false] at he
            rcases he with rfl | rfl
            · show ("aliasedType" : String) ≠ "instantiatedType"
              decide
            · show ("aliasedTypeTypeArguments" : String) ≠ "instantiatedType"
              decide)
    simp only [List.cons_append, List.nil_append] at hat
    exact hat
  · rw [getF_reorder]
    have hsp := getF_objLit_from_spread
        [Entry.field "kind" (.vStr "GenericTypeAlias")]
        (preprocess raw).type
        [Entry.field "instantiatedType" Value.undef,
         Entry.field "aliasedType" (getF raw "instantiatedType"),
         Entry.field "aliasedTypeTypeArguments" (getF raw "typeArguments")]
        "typeArguments" hndpre
        (by intro e he
            simp only [List.mem_cons, List.not_mem_nil, or_false] at he
            rcases he with rfl | rfl | rfl
            · show ("instantiatedType" : String) ≠ "typeArguments"
              decide
            · show ("aliasedType" : String) ≠ "typeArguments"
              decide
            · show ("aliasedTypeTypeArguments" : String) ≠ "typeArguments"
              decide)
        rfl
    simp only [List.cons_append, List.nil_append] at hsp
    rw [hsp, tTA]

/-- Witness for the amended C3. -/
theorem c3_generic_type_alias_witness :
    ∃ out, simplifyType [("id", Value.vNum 1), ("aliasTypeArguments", Value.vArr [Value.vNum 9]),
        ("instantiatedType", Value.vNum 3),
        ("typeArguments", Value.vArr [Value.vNum 4, Value.vNum 5])] = .ok out ∧
      getF out "kind" = .vStr "GenericTypeAlias" ∧
      getF out "aliasedType" = Value.vNum 3 ∧
      getF out "aliasedTypeTypeArguments" = Value.vArr [Value.vNum 4, Value.vNum 5] ∧
      getF out "instantiatedType" = Value.undef ∧
      getF out "typeArguments" = Value.vArr [Value.vNum 4, Value.vNum 5] := by
  have h := c3_generic_type_alias
    [("id", Value.vNum 1), ("aliasTypeArguments", Value.vArr [Value.vNum 9]),
     ("instantiatedType", Value.vNum 3),
     ("typeArguments", Value.vArr [Value.vNum 4, Value.vNum 5])]
    (by decide) (by decide) rfl rfl rfl rfl rfl rfl rfl rfl rfl rfl
  simpa using h

/-! ## C5: the anonymous-name rule -/

/-- C5: a record reaching rule 19 whose name is one of the four anonymous
markers is classified `Anonymous` followed by the capitalized tag; `name` is
cleared, and `display` survives only when no location was resolved. -/
theorem c5_anonymous_names :
    ∀ (raw : Obj) (nm : String),
      "kind" ∉ keys raw → (keys raw).Nodup →
      getF raw "symbolName" = .vStr nm →
      nm ∈ ["__function", "__type", "__class", "__object"] →
      truthy (getF raw "intrinsicName") = false →
      truthy (getF raw "unionTypes") = false →
      truthy (getF raw "intersectionTypes") = false →
      truthy (getF raw "indexedAccessObjectType") = false →
      truthy (getF raw "keyofType") = false →
      truthy (getF raw "isTuple") = false →
      truthy (getF raw "conditionalCheckType") = false →
      truthy (getF raw "substitutionBaseType") = false →
      truthy (getF raw "reverseMappedSourceType") = false →
      truthy (getF raw "aliasTypeArguments") = false →
      (truthy (getF raw "instantiatedType") &&
        truthy (optChainProp (getF raw "typeArguments") "length")) = false →
      truthy (getF raw "destructuringPattern") = false →
      jsIncludes (getF raw "flags") "StringLiteral" = .ok false →
      jsIncludes (getF raw "flags") "NumberLiteral" = .ok false →
      jsIncludes (getF raw "flags") "BigIntLiteral" = .ok false →
      jsIncludes (getF raw "flags") "TypeParameter" = .ok false →
      jsIncludes (getF raw "flags") "UniqueESSymbol" = .ok false →
      ∃ out, simplifyType raw = .ok out ∧
        getF out "kind" = .vStr (if nm = "__function" then "AnonymousFunction"
          else if nm = "__type" then "AnonymousType"
          else if nm = "__class" then "AnonymousClass" else "AnonymousObject") ∧
        getF out "name" = Value.undef ∧
        (truthy (getF out "location") = true → getF out "display" = Value.undef) ∧
        (truthy (getF out "location") = false → getF out "display" = getF raw "display") := by
  intro raw nm hkind hnd hnm hmem h1 h2 h3 h4 h5 h6 h7 h8 h9 h10 h11 h12 f1 f2 f3 f4 f5
  have hkpre : "kind" ∉ keys (preprocess raw).type := by
    rw [mem_keys_preprocess]
    rintro (h | h)
    · exact hkind h
    · revert h; decide
  have hndpre : (keys (preprocess raw).type).Nodup := nodup_keys_preprocess raw hnd
  have t1 : getF (preprocess raw).type "intrinsicName" = getF raw "intrinsicName" :=
    getF_preprocess_of_untouched raw _ (by decide)
  have t2 : getF (preprocess raw).type "unionTypes" = getF raw "unionTypes" :=
    getF_preprocess_of_untouched raw _ (by decide)
  have t3 : getF (preprocess raw).type "intersectionTypes" = getF raw "intersectionTypes" :=
    getF_preprocess_of_untouched raw _ (by decide)
  have t4 : getF (preprocess raw).type "indexedAccessObjectType" = getF raw "indexedAccessObjectType" :=
    getF_preprocess_of_untouched raw _ (by decide)
  have t5 : getF (preprocess raw).type "keyofType" = getF raw "keyofType" :=
    getF_preprocess_of_untouched raw _ (by decide)
  have t6 : getF (preprocess raw).type "isTuple" = getF raw "isTuple" :=
    getF_preprocess_of_untouched raw _ (by decide)
  have t7 : getF (preprocess raw).type "conditionalCheckType" = getF raw "conditionalCheckType" :=
    getF_preprocess_of_untouched raw _ (by decide)
  have t8 : getF (preprocess raw).type "substitutionBaseType" = getF raw "substitutionBaseType" :=
    getF_preprocess_of_untouched raw _ (by decide)
  have t9 : getF (preprocess raw).type "reverseMappedSourceType" = getF raw "reverseMappedSourceType" :=
    getF_preprocess_of_untouched raw _ (by decide)
  have t10 : getF (preprocess raw).type "aliasTypeArguments" = getF raw "aliasTypeArguments" :=
    getF_preprocess_of_untouched raw _ (by decide)
  have tIT : getF (preprocess raw).type "instantiatedType" = getF raw "instantiatedType" :=
    getF_preprocess_of_untouched raw _ (by decide)
  have tTA : getF (preprocess raw).type "typeArguments" = getF raw "typeArguments" :=
    getF_preprocess_of_untouched raw _ (by decide)
  have hg18 : optChainStartsWith (.vStr nm) "__@" = .ok (.vBool false) := by
    simp only [List.mem_cons, List.not_mem_nil, or_false] at hmem
    rcases hmem with rfl | rfl | rfl | rfl <;> rfl
  have hg19 : (jsStrictEq (.vStr nm) (.vStr "__function")
      || jsStrictEq (.vStr nm) (.vStr "__type")
      || jsStrictEq (.vStr nm) (.vStr "__class")
      || jsStrictEq (.vStr nm) (.vStr "__object")) = true := by
    simp only [List.mem_cons, List.not_mem_nil, or_false] at hmem
    rcases hmem with rfl | rfl | rfl | rfl <;> rfl
  have hkindval : "Anonymous" ++ firstToUpper (stripUnderscores nm) =
      (if nm = "__function" then "AnonymousFunction"
       else if nm = "__type" then "AnonymousType"
       else if nm = "__class" then "AnonymousClass" else "AnonymousObject") := by
    simp only [List.mem_cons, List.not_mem_nil, or_false] at hmem
    rcases hmem with rfl | rfl | rfl | rfl <;> rfl
  have hnamepre : getF (preprocess raw).type "name" = .vStr nm := by
    rw [preprocess_name]; exact hnm
  have hhelp : simplifyTypeHelper raw =
      .ok (makeAnonymous (preprocess raw).type (preprocess raw).display none) := by
    simp only [simplifyTypeHelper, simplifyRules]
    rw [t1, h1, t2, h2, t3, h3, t4, h4, t5, h5, t6, h6, t7, h7, t8, h8, t9, h9, t10, h10,
        tIT, tTA, h11, preprocess_isDestructuring, h12, preprocess_flags, f1, f2, f3, f4, f5,
        hnamepre, hg18, hg19]
    simp [truthy, Except.bind]
  have hma : makeAnonymous (preprocess raw).type (preprocess raw).display none = objLit
      [.field "kind" (.vStr ("Anonymous" ++ firstToUpper (stripUnderscores nm))),
       .spread (preprocess raw).type,
       .field "display" (if truthy (getF (preprocess raw).type "location") then Value.undef
          else (preprocess raw).display),
       .field "name" Value.undef] := by
    unfold makeAnonymous
    rw [hnamepre]
    simp [strOf]
  have hfk : getF (objLit
      [.field "kind" (.vStr ("Anonymous" ++ firstToUpper (stripUnderscores nm))),
       .spread (preprocess raw).type,
       .field "display" (if truthy (getF (preprocess raw).type "location") then Value.undef
          else (preprocess raw).display),
       .field "name" Value.undef]) "kind" =
      .vStr ("Anonymous" ++ firstToUpper (stripUnderscores nm)) := by
    rw [getF_objLit_field_head]
    intro e he
    simp only [List.mem_cons, List.not_mem_nil, or_false] at he
    rcases he with rfl | rfl | rfl
    · exact hkpre
    · show ("display" : String) ≠ "kind"
      decide
    · show ("name" : String) ≠ "kind"
      decide
  have hfn : getF (objLit
      [.field "kind" (.vStr ("Anonymous" ++ firstToUpper (stripUnderscores nm))),
       .spread (preprocess raw).type,
       .field "display" (if truthy (getF (preprocess raw).type "location") then Value.undef
          else (preprocess raw).display),
       .field "name" Value.undef]) "name" = Value.undef := by
    have hat := getF_objLit_field_at
        [Entry.field "kind" (.vStr ("Anonymous" ++ firstToUpper (stripUnderscores nm))),
         Entry.spread (preprocess raw).type,
         Entry.field "display" (if truthy (getF (preprocess raw).type "location") then Value.undef
            else (preprocess raw).display)]
        "name" Value.undef [] (by intro e he; simp at he)
    simp only [List.cons_append, List.nil_append] at hat
    exact hat
  have hfd : getF (objLit
      [.field "kind" (.vStr ("Anonymous" ++ firstToUpper (stripUnderscores nm))),
       .spread (preprocess raw).type,
       .field "display" (if truthy (getF (preprocess raw).type "location") then Value.undef
          else (preprocess raw).display),
       .field "name" Value.undef]) "display" =
      (if truthy (getF (preprocess raw).type "location") then Value.undef
       else (preprocess raw).display) := by
    have hat := getF_objLit_field_at
        [Entry.field "kind" (.vStr ("Anonymous" ++ firstToUpper (stripUnderscores nm))),
         Entry.spread (preprocess raw).type]
        "display" (if truthy (getF (preprocess raw).type "location") then Value.undef
          else (preprocess raw).display)
        [Entry.field "name" Value.undef]
        (by intro e he
            simp only [List.mem_cons, List.not_mem_nil, or_false] at he
            subst he
            show ("name" : String) ≠ "display"
            decide)
    simp only [List.cons_append, List.nil_append] at hat
    exact hat
  have hfl : getF (objLit
      [.field "kind" (.vStr ("Anonymous" ++ firstToUpper (stripUnderscores nm))),
       .spread (preprocess raw).type,
       .field "display" (if truthy (getF (preprocess raw).type "location") then Value.undef
          else (preprocess raw).display),
       .field "name" Value.undef]) "location" = getF (preprocess raw).type "location" := by
    have hsp := getF_objLit_from_spread
        [Entry.field "kind" (.vStr ("Anonymous" ++ firstToUpper (stripUnderscores nm)))]
        (preprocess raw).type
        [Entry.field "display" (if truthy (getF (preprocess raw).type "location") then Value.undef
            else (preprocess raw).display),
         Entry.field "name" Value.undef]
        "location" hndpre
        (by intro e he
            simp only [List.mem_cons, List.not_mem_nil, or_false] at he
            rcases he with rfl | rfl
            · show ("display" : String) ≠ "location"
              decide
            · show ("name" : String) ≠ "location"
              decide)
        rfl
    simp only [List.cons_append, List.nil_append] at hsp
    exact hsp
  unfold simplifyType
  rw [hhelp, hma]
  simp only [Except.map]
  refine ⟨_, rfl, ?_, ?_, ?_, ?_⟩
  · rw [getF_reorder, hfk, hkindval]
  · rw [getF_reorder, hfn]
  · intro htl
    rw [getF_reorder, hfl] at htl
    rw [getF_reorder, hfd, if_pos htl]
  · intro htl
    rw [getF_reorder, hfl] at htl
    rw [getF_reorder, hfd, if_neg (by rw [htl]; exact Bool.false_ne_true), preprocess_display]

/-- Witness for C5: an anonymous `__function` record (whose flags even
contain `Object`, exercising the priority of rule 19 over rule 21). -/
theorem c5_anonymous_names_witness :
    ∃ out, simplifyType [("id", Value.vNum 1), ("symbolName", Value.vStr "__function"),
        ("flags", Value.vArr [Value.vStr "Object"])] = .ok out ∧
      getF out "kind" = .vStr "AnonymousFunction" ∧
      getF out "name" = Value.undef ∧
      getF out "display" = Value.undef := by
  obtain ⟨out, hout, hk, hn, -, hd2⟩ := c5_anonymous_names
    [("id", Value.vNum 1), ("symbolName", Value.vStr "__function"),
     ("flags", Value.vArr [Value.vStr "Object"])]
    "__function" (by decide) (by decide) rfl (by decide)
    rfl rfl rfl rfl rfl rfl rfl rfl rfl rfl rfl rfl rfl rfl rfl rfl rfl
  have hloc : truthy (getF out "location") = false := by
    have hmap : Except.map (fun o => truthy (getF o "location"))
        (simplifyType [("id", Value.vNum 1), ("symbolName", Value.vStr "__function"),
          ("flags", Value.vArr [Value.vStr "Object"])]) = .ok false := rfl
    rw [hout] at hmap
    simpa [Except.map] using hmap
  exact ⟨out, hout, by simpa using hk, hn, by rw [hd2 hloc]; rfl⟩

theorem exceptBindOk {α β : Type} (x : Except String α) (f : α → Except String β) (b : β)
    (h : x.bind f = .ok b) : ∃ a, x = .ok a ∧ f a = .ok b := by
  cases x with
  | error e =>
      simp only [Except.bind] at h
      exact Except.noConfusion h
  | ok a =>
      refine ⟨a, rfl, ?_⟩
      simpa only [Except.bind] using h

/-- The field names any branch literal of either rule chain can write. -/
def branchFieldKeys : List String :=
  ["kind", "count", "types", "name", "intrinsicName", "unionTypes", "intersectionTypes",
   "isTuple", "conditionalTrueType", "conditionalFalseType", "originalType",
   "substitutionBaseType", "sourceType", "mappedType", "constraintType",
   "reverseMappedSourceType", "reverseMappedMappedType", "reverseMappedConstraintType",
   "instantiatedType", "aliasedType", "aliasedTypeTypeArguments", "value", "display"]

/-- Entries that are all named fields with keys drawn from `S`. -/
def fieldsWithKeysIn (es : List Entry) (S : List String) : Prop :=
  ∀ e ∈ es, ∃ k v, e = .field k v ∧ k ∈ S

theorem entryAvoids_of_fieldsIn (k : String) (es : List Entry)
    (hk : k ∉ branchFieldKeys) (hes : fieldsWithKeysIn es branchFieldKeys) :
    ∀ e ∈ es, entryAvoids k e := by
  intro e he
  obtain ⟨k2, v, rfl, h2⟩ := hes e he
  exact fun heq => hk (heq ▸ h2)

theorem getF_objLit_avoids_undef (es : List Entry) (k : String)
    (h : ∀ e ∈ es, entryAvoids k e) : getF (objLit es) k = Value.undef :=
  getF_foldl_applyEntry_of_avoids es [] k h

/-- Every record returned by the rule chain is an object literal: branch
fields (with keys from the fixed branch vocabulary), a spread of the
preprocessed record, then more branch fields. -/
theorem simplifyRules_shape (pre : Pre) (p : Obj) (h : simplifyRules pre = .ok p) :
    ∃ es1 es2, p = objLit (es1 ++ .spread pre.type :: es2) ∧
      fieldsWithKeysIn es1 branchFieldKeys ∧ fieldsWithKeysIn es2 branchFieldKeys := by
  unfold simplifyRules at h
  by_cases g1 : truthy (getF pre.type "intrinsicName") = true
  · rw [if_pos g1] at h
    injection h with h
    refine ⟨[.field "kind" _], [.field "name" _, .field "intrinsicName" _], by rw [← h]; rfl, ?_, ?_⟩ <;>
      (intro e he; fin_cases he <;> exact ⟨_, _, rfl, by decide⟩)
  rw [if_neg g1] at h
  by_cases g2 : truthy (getF pre.type "unionTypes") = true
  · rw [if_pos g2] at h
    injection h with h
    refine ⟨[.field "kind" _, .field "count" _, .field "types" _], [.field "unionTypes" _], by rw [← h]; rfl, ?_, ?_⟩ <;>
      (intro e he; fin_cases he <;> exact ⟨_, _, rfl, by decide⟩)
  rw [if_neg g2] at h
  by_cases g3 : truthy (getF pre.type "intersectionTypes") = true
  · rw [if_pos g3] at h
    injection h with h
    refine ⟨[.field "kind" _, .field "count" _, .field "types" _], [.field "intersectionTypes" _], by rw [← h]; rfl, ?_, ?_⟩ <;>
      (intro e he; fin_cases he <;> exact ⟨_, _, rfl, by decide⟩)
  rw [if_neg g3] at h
  by_cases g4 : truthy (getF pre.type "indexedAccessObjectType") = true
  · rw [if_pos g4] at h
    injection h with h
    refine ⟨[.field "kind" _], ([] : List Entry), by rw [← h]; rfl, ?_, ?_⟩ <;>
      (intro e he; fin_cases he <;> exact ⟨_, _, rfl, by decide⟩)
  rw [if_neg g4] at h
  by_cases g5 : truthy (getF pre.type "keyofType") = true
  · rw [if_pos g5] at h
    injection h with h
    refine ⟨[.field "kind" _], ([] : List Entry), by rw [← h]; rfl, ?_, ?_⟩ <;>
      (intro e he; fin_cases he <;> exact ⟨_, _, rfl, by decide⟩)
  rw [if_neg g5] at h
  by_cases g6 : truthy (getF pre.type "isTuple") = true
  · rw [if_pos g6] at h
    injection h with h
    refine ⟨[.field "kind" _], [.field "isTuple" _], by rw [← h]; rfl, ?_, ?_⟩ <;>
      (intro e he; fin_cases he <;> exact ⟨_, _, rfl, by decide⟩)
  rw [if_neg g6] at h
  by_cases g7 : truthy (getF pre.type "conditionalCheckType") = true
  · rw [if_pos g7] at h
    injection h with h
    refine ⟨[.field "kind" _], [.field "conditionalTrueType" _, .field "conditionalFalseType" _], by rw [← h]; rfl, ?_, ?_⟩ <;>
      (intro e he; fin_cases he <;> exact ⟨_, _, rfl, by decide⟩)
  rw [if_neg g7] at h
  by_cases g8 : truthy (getF pre.type "substitutionBaseType") = true
  · rw [if_pos g8] at h
    injection h with h
    refine ⟨[.field "kind" _, .field "originalType" _], [.field "substitutionBaseType" _], by rw [← h]; rfl, ?_, ?_⟩ <;>
      (intro e he; fin_cases he <;> exact ⟨_, _, rfl, by decide⟩)
  rw [if_neg g8] at h
  by_cases g9 : truthy (getF pre.type "reverseMappedSourceType") = true
  · rw [if_pos g9] at h
    injection h with h
    refine ⟨[.field "kind" _, .field "sourceType" _, .field "mappedType" _, .field "constraintType" _], [.field "reverseMappedSourceType" _, .field "reverseMappedMappedType" _, .field "reverseMappedConstraintType" _], by rw [← h]; rfl, ?_, ?_⟩ <;>
      (intro e he; fin_cases he <;> exact ⟨_, _, rfl, by decide⟩)
  rw [if_neg g9] at h
  by_cases g10 : truthy (getF pre.type "aliasTypeArguments") = true
  · rw [if_pos g10] at h
    injection h with h
    refine ⟨[.field "kind" _], [.field "instantiatedType" _, .field "aliasedType" _, .field "aliasedTypeTypeArguments" _], by rw [← h]; rfl, ?_, ?_⟩ <;>
      (intro e he; fin_cases he <;> exact ⟨_, _, rfl, by decide⟩)
  rw [if_neg g10] at h
  by_cases g11 : (truthy (getF pre.type "instantiatedType") && truthy (optChainProp (getF pre.type "typeArguments") "length")) = true
  · rw [if_pos g11] at h
    injection h with h
    refine ⟨[.field "kind" _], [.field "instantiatedType" _], by rw [← h]; rfl, ?_, ?_⟩ <;>
      (intro e he; fin_cases he <;> exact ⟨_, _, rfl, by decide⟩)
  rw [if_neg g11] at h
  by_cases g12 : pre.isDestructuring = true
  · rw [if_pos g12] at h
    injection h with h
    refine ⟨[.field "kind" _], ([] : List Entry), by rw [← h]; rfl, ?_, ?_⟩ <;>
      (intro e he; fin_cases he <;> exact ⟨_, _, rfl, by decide⟩)
  rw [if_neg g12] at h
  obtain ⟨hit, hf, h⟩ := exceptBindOk _ _ _ h
  rcases Bool.eq_false_or_eq_true hit with hcase | hcase
  · rw [hcase, if_pos rfl] at h
    injection h with h
    refine ⟨[.field "kind" _, .field "value" _], ([] : List Entry), by rw [← h]; rfl, ?_, ?_⟩ <;>
      (intro e he; fin_cases he <;> exact ⟨_, _, rfl, by decide⟩)
  rw [hcase, if_neg Bool.false_ne_true] at h
  clear hf hcase
  obtain ⟨hit, hf, h⟩ := exceptBindOk _ _ _ h
  rcases Bool.eq_false_or_eq_true hit with hcase | hcase
  · rw [hcase, if_pos rfl] at h
    injection h with h
    refine ⟨[.field "kind" _, .field "value" _], ([] : List Entry), by rw [← h]; rfl, ?_, ?_⟩ <;>
      (intro e he; fin_cases he <;> exact ⟨_, _, rfl, by decide⟩)
  rw [hcase, if_neg Bool.false_ne_true] at h
  clear hf hcase
  obtain ⟨hit, hf, h⟩ := exceptBindOk _ _ _ h
  rcases Bool.eq_false_or_eq_true hit with hcase | hcase
  · rw [hcase, if_pos rfl] at h
    injection h with h
    refine ⟨[.field "kind" _, .field "value" _], ([] : List Entry), by rw [← h]; rfl, ?_, ?_⟩ <;>
      (intro e he; fin_cases he <;> exact ⟨_, _, rfl, by decide⟩)
  rw [hcase, if_neg Bool.false_ne_true] at h
  clear hf hcase
  obtain ⟨hit, hf, h⟩ := exceptBindOk _ _ _ h
  rcases Bool.eq_false_or_eq_true hit with hcase | hcase
  · rw [hcase, if_pos rfl] at h
    injection h with h
    refine ⟨[.field "kind" _], ([] : List Entry), by rw [← h]; rfl, ?_, ?_⟩ <;>
      (intro e he; fin_cases he <;> exact ⟨_, _, rfl, by decide⟩)
  rw [hcase, if_neg Bool.false_ne_true] at h
  clear hf hcase
  obtain ⟨hit, hf, h⟩ := exceptBindOk _ _ _ h
  rcases Bool.eq_false_or_eq_true hit with hcase | hcase
  · rw [hcase, if_pos rfl] at h
    injection h with h
    refine ⟨[.field "kind" _], ([] : List Entry), by rw [← h]; rfl, ?_, ?_⟩ <;>
      (intro e he; fin_cases he <;> exact ⟨_, _, rfl, by decide⟩)
  rw [hcase, if_neg Bool.false_ne_true] at h
  clear hf hcase
  obtain ⟨g, hg, h⟩ := exceptBindOk _ _ _ h
  by_cases hgt : truthy g = true
  · rw [if_pos hgt] at h
    injection h with h
    refine ⟨[.field "kind" _], [.field "name" _], by rw [← h]; rfl, ?_, ?_⟩ <;>
      (intro e he; fin_cases he <;> exact ⟨_, _, rfl, by decide⟩)
  rw [if_neg hgt] at h
  by_cases hanon : (jsStrictEq (getF pre.type "name") (.vStr "__function")
      || jsStrictEq (getF pre.type "name") (.vStr "__type")
      || jsStrictEq (getF pre.type "name") (.vStr "__class")
      || jsStrictEq (getF pre.type "name") (.vStr "__object")) = true
  · rw [if_pos hanon] at h
    unfold makeAnonymous at h
    injection h with h
    refine ⟨[.field "kind" _], [.field "display" _, .field "name" _], by rw [← h]; rfl, ?_, ?_⟩ <;>
      (intro e he; fin_cases he <;> exact ⟨_, _, rfl, by decide⟩)
  rw [if_neg hanon] at h
  by_cases hjxa : jsStrictEq (getF pre.type "name") (.vStr "__jsxAttributes") = true
  · rw [if_pos hjxa] at h
    unfold makeAnonymous at h
    injection h with h
    refine ⟨[.field "kind" _], [.field "display" _, .field "name" _], by rw [← h]; rfl, ?_, ?_⟩ <;>
      (intro e he; fin_cases he <;> exact ⟨_, _, rfl, by decide⟩)
  rw [if_neg hjxa] at h
  obtain ⟨objFlag, hof, h⟩ := exceptBindOk _ _ _ h
  by_cases hobj : (objFlag && truthy (getF pre.type "name")) = true
  · rw [if_pos hobj] at h
    injection h with h
    refine ⟨[.field "kind" _], ([] : List Entry), by rw [← h]; rfl, ?_, ?_⟩ <;>
      (intro e he; fin_cases he <;> exact ⟨_, _, rfl, by decide⟩)
  rw [if_neg hobj] at h
  unfold jsxOrOther at h
  obtain ⟨isJsx, hjg, h⟩ := exceptBindOk _ _ _ h
  rcases Bool.eq_false_or_eq_true isJsx with hcase | hcase
  · rw [hcase, if_pos rfl] at h
    injection h with h
    refine ⟨[.field "kind" _], [.field "display" _], by rw [← h]; rfl, ?_, ?_⟩ <;>
      (intro e he; fin_cases he <;> exact ⟨_, _, rfl, by decide⟩)
  rw [hcase, if_neg Bool.false_ne_true] at h
  injection h with h
  refine ⟨[.field "kind" _], [.field "display" _], by rw [← h]; rfl, ?_, ?_⟩ <;>
    (intro e he; fin_cases he <;> exact ⟨_, _, rfl, by decide⟩)

/-- The shape lemma, stated for `simplifyTypeHelper`. -/
theorem simplifyTypeHelper_shape (raw p : Obj) (h : simplifyTypeHelper raw = .ok p) :
    ∃ es1 es2, p = objLit (es1 ++ .spread (preprocess raw).type :: es2) ∧
      fieldsWithKeysIn es1 branchFieldKeys ∧ fieldsWithKeysIn es2 branchFieldKeys :=
  simplifyRules_shape (preprocess raw) p h

/-- Every successful classification has pairwise distinct output keys. -/
theorem simplifyTypeHelper_nodup (raw p : Obj) (h : simplifyTypeHelper raw = .ok p) :
    (keys p).Nodup := by
  obtain ⟨es1, es2, rfl, -, -⟩ := simplifyTypeHelper_shape raw p h
  exact objLit_keys_nodup _

/-- A key no branch ever writes reads through to the preprocessed record. -/
theorem simplifyTypeHelper_preserves (raw p : Obj) (k : String)
    (h : simplifyTypeHelper raw = .ok p) (hnd : (keys raw).Nodup)
    (hk : k ∉ branchFieldKeys) :
    getF p k = getF (preprocess raw).type k := by
  obtain ⟨es1, es2, rfl, hf1, hf2⟩ := simplifyTypeHelper_shape raw p h
  rw [getF_objLit_from_spread es1 (preprocess raw).type es2 k
    (nodup_keys_preprocess raw hnd)
    (entryAvoids_of_fieldsIn k es2 hk hf2)
    (getF_objLit_avoids_undef es1 k (entryAvoids_of_fieldsIn k es1 hk hf1))]

/-! ## C7: location resolution -/

/-- C7: the output `location` comes from the first present of
`destructuringPattern`, `referenceLocation`, `firstDeclaration` — extracted
as the `\x7b path, line, char \x7d` object `locationFrom` builds from the node's
`path` and `start` position — and is absent when none of the three is
present; the three source fields themselves are always absent from the
output.  The three candidates are location-bearing nodes (objects) when
present, per the data model. -/
theorem c7_location_resolution :
    ∀ (raw out : Obj), (keys raw).Nodup →
      (getF raw "destructuringPattern" = Value.undef ∨
        ∃ fs, getF raw "destructuringPattern" = Value.vObj fs) →
      (getF raw "referenceLocation" = Value.undef ∨
        ∃ fs, getF raw "referenceLocation" = Value.vObj fs) →
      (getF raw "firstDeclaration" = Value.undef ∨
        ∃ fs, getF raw "firstDeclaration" = Value.vObj fs) →
      simplifyType raw = .ok out →
      getF out "location" =
        (if isUndef (getF raw "destructuringPattern") = false
         then locationFrom (getF raw "destructuringPattern")
         else if isUndef (getF raw "referenceLocation") = false
         then locationFrom (getF raw "referenceLocation")
         else if isUndef (getF raw "firstDeclaration") = false
         then locationFrom (getF raw "firstDeclaration")
         else Value.undef) ∧
      getF out "destructuringPattern" = Value.undef ∧
      getF out "referenceLocation" = Value.undef ∧
      getF out "firstDeclaration" = Value.undef := by
  intro raw out hnd hdP hrL hfD hok
  obtain ⟨p, hp, rfl⟩ : ∃ p, simplifyTypeHelper raw = .ok p ∧ out = reorder p := by
    unfold simplifyType at hok
    cases hh : simplifyTypeHelper raw with
    | error e => rw [hh] at hok; exact Except.noConfusion hok
    | ok p =>
        rw [hh] at hok
        simp only [Except.map] at hok
        exact ⟨p, rfl, (Except.ok.injEq _ _ ▸ hok).symm⟩
  refine ⟨?_, ?_, ?_, ?_⟩
  · rw [getF_reorder,
      simplifyTypeHelper_preserves raw p "location" hp hnd (by decide),
      preprocess_location]
    rcases hdP with hdP | ⟨fs1, hdP⟩ <;> rcases hrL with hrL | ⟨fs2, hrL⟩ <;>
      rcases hfD with hfD | ⟨fs3, hfD⟩ <;>
      simp [hdP, hrL, hfD, locationNode, jsCoalesce, jsAnd, isNullish, truthy, isUndef]
  · rw [getF_reorder,
      simplifyTypeHelper_preserves raw p "destructuringPattern" hp hnd (by decide),
      preprocess_dP]
  · rw [getF_reorder,
      simplifyTypeHelper_preserves raw p "referenceLocation" hp hnd (by decide),
      preprocess_rL]
  · rw [getF_reorder,
      simplifyTypeHelper_preserves raw p "firstDeclaration" hp hnd (by decide),
      preprocess_fD]

/-- Witness for C7: a record carrying both `destructuringPattern` and
`referenceLocation` resolves `location` from `destructuringPattern`. -/
theorem c7_location_resolution_witness :
    ∃ out, simplifyType [("id", Value.vNum 2),
      ("destructuringPattern", Value.vObj [("path", Value.vStr "a.ts"),
        ("start", Value.vObj [("line", Value.vNum 1), ("character", Value.vNum 2)])]),
      ("referenceLocation", Value.vObj [("path", Value.vStr "b.ts")])] = .ok out ∧
      getF out "location" = Value.vObj [("path", Value.vStr "a.ts"),
        ("line", Value.vNum 1), ("char", Value.vNum 2)] ∧
      getF out "destructuringPattern" = Value.undef ∧
      getF out "referenceLocation" = Value.undef := by
  have hok : simplifyType [("id", Value.vNum 2),
      ("destructuringPattern", Value.vObj [("path", Value.vStr "a.ts"),
        ("start", Value.vObj [("line", Value.vNum 1), ("character", Value.vNum 2)])]),
      ("referenceLocation", Value.vObj [("path", Value.vStr "b.ts")])] =
      .ok ((simplifyType [("id", Value.vNum 2),
      ("destructuringPattern", Value.vObj [("path", Value.vStr "a.ts"),
        ("start", Value.vObj [("line", Value.vNum 1), ("character", Value.vNum 2)])]),
      ("referenceLocation", Value.vObj [("path", Value.vStr "b.ts")])]).toOption.getD []) := rfl
  obtain ⟨hl, hd, hr, -⟩ := c7_location_resolution [("id", Value.vNum 2),
      ("destructuringPattern", Value.vObj [("path", Value.vStr "a.ts"),
        ("start", Value.vObj [("line", Value.vNum 1), ("character", Value.vNum 2)])]),
      ("referenceLocation", Value.vObj [("path", Value.vStr "b.ts")])]
    ((simplifyType [("id", Value.vNum 2),
      ("destructuringPattern", Value.vObj [("path", Value.vStr "a.ts"),
        ("start", Value.vObj [("line", Value.vNum 1), ("character", Value.vNum 2)])]),
      ("referenceLocation", Value.vObj [("path", Value.vStr "b.ts")])]).toOption.getD [])
    (by decide) (Or.inr ⟨_, rfl⟩) (Or.inr ⟨_, rfl⟩) (Or.inl rfl) hok
  exact ⟨_, hok, by rw [hl]; rfl, hd, hr⟩

/-! ## C9: line mode drops everything after a parse fault -/

theorem lineRun_ok_prefix (jp : String → Except String Value) (ls : List String)
    (em : List Value) (h : ∀ l ∈ ls, (jp (stripLineBrackets l)).isOk = true) :
    ls.foldl (lineTransformStep jp) { sawError := false, emitted := em } =
      { sawError := false,
        emitted := em ++ ls.filterMap (fun l => (jp (stripLineBrackets l)).toOption) } := by
  induction ls generalizing em with
  | nil => simp
  | cons l rest ih =>
      have hl := h l (List.mem_cons_self l rest)
      cases hv : jp (stripLineBrackets l) with
      | error e =>
          rw [hv] at hl
          exact absurd hl (by simp [Except.isOk, Except.toBool])
      | ok v =>
          have hstep : lineTransformStep jp { sawError := false, emitted := em } l =
              { sawError := false, emitted := em ++ [v] } := by
            simp [lineTransformStep, hv]
          rw [List.foldl_cons, hstep,
            ih (em ++ [v]) (fun l2 hl2 => h l2 (List.mem_cons_of_mem l hl2))]
          simp [hv, Except.toOption, List.filterMap_cons]

theorem lineRun_error_absorbs (jp : String → Except String Value) (ls : List String)
    (em : List Value) :
    ls.foldl (lineTransformStep jp) { sawError := true, emitted := em } =
      { sawError := true, emitted := em } := by
  induction ls with
  | nil => rfl
  | cons l rest ih =>
      rw [List.foldl_cons, show lineTransformStep jp { sawError := true, emitted := em } l =
        { sawError := true, emitted := em } by simp [lineTransformStep], ih]

/-- C9: in line mode, once some line fails to parse, no record is emitted
for that line or any later line — the emitted stream is exactly the parses
of the error-free prefix — and the run still completes in the permanent
`sawError` state rather than aborting. -/
theorem c9_line_mode_drops_after_fault :
    ∀ (jsonParse : String → Except String Value) (good : List String) (bad : String)
      (rest : List String),
      (∀ l ∈ good, (jsonParse (stripLineBrackets l)).isOk = true) →
      (jsonParse (stripLineBrackets bad)).isOk = false →
      (lineTransformRun jsonParse (good ++ bad :: rest)).emitted =
        good.filterMap (fun l => (jsonParse (stripLineBrackets l)).toOption) ∧
      (lineTransformRun jsonParse (good ++ bad :: rest)).sawError = true := by
  intro jp good bad rest hgood hbad
  cases hv : jp (stripLineBrackets bad) with
  | ok v => rw [hv] at hbad; exact absurd hbad (by simp [Except.isOk, Except.toBool])
  | error e =>
      have hrun : lineTransformRun jp (good ++ bad :: rest) =
          { sawError := true,
            emitted := good.filterMap (fun l => (jp (stripLineBrackets l)).toOption) } := by
        unfold lineTransformRun
        rw [List.foldl_append, lineRun_ok_prefix jp good [] hgood, List.foldl_cons]
        rw [show lineTransformStep jp
            { sawError := false,
              emitted := [] ++ good.filterMap (fun l => (jp (stripLineBrackets l)).toOption) } bad =
            { sawError := true,
              emitted := [] ++ good.filterMap (fun l => (jp (stripLineBrackets l)).toOption) }
          by simp [lineTransformStep, hv]]
        rw [lineRun_error_absorbs]
        simp
      rw [hrun]
      exact ⟨rfl, rfl⟩

/-- Witness for C9 with a concrete two-symbol parser: the good line is
emitted, the faulting line and the good line after it are both dropped. -/
theorem c9_line_mode_drops_after_fault_witness :
    (lineTransformRun (fun s => if s = "x" then .ok (.vObj []) else .error "bad")
        (["x"] ++ "y" :: ["x"])).emitted = [Value.vObj []] ∧
    (lineTransformRun (fun s => if s = "x" then .ok (.vObj []) else .error "bad")
        (["x"] ++ "y" :: ["x"])).sawError = true := by
  have h := c9_line_mode_drops_after_fault
    (fun s => if s = "x" then .ok (.vObj []) else .error "bad")
    ["x"] "y" ["x"]
    (by intro l hl
        simp only [List.mem_cons, List.not_mem_nil, or_false] at hl
        subst hl
        rfl)
    rfl
  exact ⟨by rw [h.1]; rfl, h.2⟩

/-! ## C2: totality and the kind vocabulary -/

theorem entryAvoids_field (k k2 : String) (v : Value) :
    entryAvoids k (.field k2 v) ↔ k2 ≠ k := Iff.rfl

theorem entryAvoids_spread (k : String) (o : Obj) :
    entryAvoids k (.spread o) ↔ k ∉ keys o := Iff.rfl

/-- Counterexample to C2 as stated: a raw record with a valid `id` but no
`flags` field makes both rule chains call `includes` on `undefined` once
rules 1–12 fail, which throws — the engine does not return a record. -/
theorem c2_counterexample :
    simplifyType [("id", Value.vNum 1)] = .error "includes is not a function" ∧
    processType [("id", Value.vNum 1)] = .error "includes is not a function" :=
  ⟨rfl, rfl⟩

/-- The §4.1 kind vocabulary. -/
def kindVocab : List String :=
  ["Intrinsic", "Union", "AliasedUnion", "Intersection", "AliasedIntersection",
   "IndexedAccess", "AliasedIndexedAccess", "IndexType", "AliasedIndexType",
   "Tuple", "AliasedTuple", "ConditionalType", "AliasedConditionalType",
   "SubstitutionType", "AliasedSubstitutionType", "ReverseMappedType",
   "AliasedReverseMappedType", "GenericTypeAlias", "GenericType",
   "GenericInstantiation", "Destructuring", "StringLiteral", "NumberLiteral",
   "BigIntLiteral", "TypeParameter", "Unique", "KnownSymbol",
   "AnonymousFunction", "AnonymousType", "AnonymousClass", "AnonymousObject",
   "JsxAttributesType", "Object", "JsxElementSignature", "Other"]

/-- A value that is a string or absent — the data-model shape of
`symbolName` and `display`. -/
def isStrOrUndef : Value → Bool
  | .undef => true
  | .vStr _ => true
  | _ => false

theorem isStrOrUndef_elim (v : Value) (h : isStrOrUndef v = true) :
    v = Value.undef ∨ ∃ s, v = Value.vStr s := by
  cases v
  case undef => exact Or.inl rfl
  case vStr s => exact Or.inr ⟨s, rfl⟩
  all_goals simp [isStrOrUndef] at h

theorem makeAliased_ok (type : Obj) (base : String)
    (h1 : base ∈ kindVocab) (h2 : ("Aliased" ++ base) ∈ kindVocab)
    (h3 : base ≠ "") (h4 : ("Aliased" ++ base) ≠ "") :
    makeAliasedKindIfNamed type base ≠ "" ∧ makeAliasedKindIfNamed type base ∈ kindVocab := by
  unfold makeAliasedKindIfNamed
  by_cases hn : truthy (getF type "name") = true
  · rw [if_pos hn]
    exact ⟨h4, h2⟩
  · rw [if_neg hn]
    exact ⟨h3, h1⟩

theorem makeAnonymous_kind (type : Obj) (display : Value) (kopt : Option String)
    (hk : "kind" ∉ keys type) :
    getF (makeAnonymous type display kopt) "kind" =
      .vStr (match kopt with
        | some k => k
        | none => "Anonymous" ++ firstToUpper (stripUnderscores (strOf (getF type "name")))) := by
  unfold makeAnonymous
  apply getF_objLit_field_head
  intro e he
  fin_cases he <;> simp only [entryAvoids_field, entryAvoids_spread] <;>
    first | exact hk | decide

theorem jsxOrOther_total (type : Obj) (display : Value)
    (hk : "kind" ∉ keys type) (hd : isStrOrUndef display = true) :
    ∃ p k, jsxOrOther type display = .ok p ∧
      getF p "kind" = .vStr k ∧ k ≠ "" ∧ k ∈ kindVocab := by
  unfold jsxOrOther jsxGuard
  rcases isStrOrUndef_elim display hd with rfl | ⟨s, rfl⟩
  · rw [if_neg (show ¬(truthy Value.undef = true) by decide)]
    simp only [Except.bind]
    rw [if_neg Bool.false_ne_true]
    refine ⟨_, "Other", rfl, ?_, by decide, by decide⟩
    apply getF_objLit_field_head
    intro e he
    fin_cases he <;> simp only [entryAvoids_field, entryAvoids_spread] <;>
      first | exact hk | decide
  · by_cases ht : truthy (Value.vStr s) = true
    · rw [if_pos ht,
        show jsCallStartsWith (Value.vStr s) "(props:" =
          .ok ("(props:".toList.isPrefixOf s.toList) from rfl]
      simp only [Except.bind]
      by_cases hb1 : "(props:".toList.isPrefixOf s.toList = true
      · rw [if_pos hb1,
          show jsCallEndsWith (Value.vStr s) "=> Element" =
            .ok ("=> Element".toList.isSuffixOf s.toList) from rfl]
        simp only [Except.bind]
        by_cases hb2 : "=> Element".toList.isSuffixOf s.toList = true
        · rw [if_pos hb2]
          refine ⟨_, "JsxElementSignature", rfl, ?_, by decide, by decide⟩
          apply getF_objLit_field_head
          intro e he
          fin_cases he <;> simp only [entryAvoids_field, entryAvoids_spread] <;>
            first | exact hk | decide
        · rw [if_neg hb2]
          refine ⟨_, "Other", rfl, ?_, by decide, by decide⟩
          apply getF_objLit_field_head
          intro e he
          fin_cases he <;> simp only [entryAvoids_field, entryAvoids_spread] <;>
            first | exact hk | decide
      · rw [if_neg hb1]
        simp only [Except.bind]
        rw [if_neg Bool.false_ne_true]
        refine ⟨_, "Other", rfl, ?_, by decide, by decide⟩
        apply getF_objLit_field_head
        intro e he
        fin_cases he <;> simp only [entryAvoids_field, entryAvoids_spread] <;>
          first | exact hk | decide
    · rw [if_neg ht]
      simp only [Except.bind]
      rw [if_neg Bool.false_ne_true]
      refine ⟨_, "Other", rfl, ?_, by decide, by decide⟩
      apply getF_objLit_field_head
      intro e he
      fin_cases he <;> simp only [entryAvoids_field, entryAvoids_spread] <;>
        first | exact hk | decide

theorem c2_rules (pre : Pre) (fs : List Value)
    (hkpre : "kind" ∉ keys pre.type)
    (hfl : pre.flags = .vArr fs)
    (hnm : isStrOrUndef (getF pre.type "name") = true)
    (hdsp : isStrOrUndef pre.display = true) :
    ∃ p k, simplifyRules pre = .ok p ∧
      getF p "kind" = .vStr k ∧ k ≠ "" ∧ k ∈ kindVocab := by
  unfold simplifyRules
  by_cases g1 : truthy (getF pre.type "intrinsicName") = true
  · rw [if_pos g1]
    refine ⟨_, "Intrinsic", rfl, ?_, by decide, by decide⟩
    apply getF_objLit_field_head
    intro e he
    fin_cases he <;> simp only [entryAvoids_field, entryAvoids_spread] <;>
      first | exact hkpre | decide
  rw [if_neg g1]
  by_cases g2 : truthy (getF pre.type "unionTypes") = true
  · rw [if_pos g2]
    refine ⟨_, makeAliasedKindIfNamed pre.type "Union", rfl, ?_,
      (makeAliased_ok pre.type "Union" (by decide) (by decide) (by decide) (by decide)).1,
      (makeAliased_ok pre.type "Union" (by decide) (by decide) (by decide) (by decide)).2⟩
    apply getF_objLit_field_head
    intro e he
    fin_cases he <;> simp only [entryAvoids_field, entryAvoids_spread] <;>
      first | exact hkpre | decide
  rw [if_neg g2]
  by_cases g3 : truthy (getF pre.type "intersectionTypes") = true
  · rw [if_pos g3]
    refine ⟨_, makeAliasedKindIfNamed pre.type "Intersection", rfl, ?_,
      (makeAliased_ok pre.type "Intersection" (by decide) (by decide) (by decide) (by decide)).1,
      (makeAliased_ok pre.type "Intersection" (by decide) (by decide) (by decide) (by decide)).2⟩
    apply getF_objLit_field_head
    intro e he
    fin_cases he <;> simp only [entryAvoids_field, entryAvoids_spread] <;>
      first | exact hkpre | decide
  rw [if_neg g3]
  by_cases g4 : truthy (getF pre.type "indexedAccessObjectType") = true
  · rw [if_pos g4]
    refine ⟨_, makeAliasedKindIfNamed pre.type "IndexedAccess", rfl, ?_,
      (makeAliased_ok pre.type "IndexedAccess" (by decide) (by decide) (by decide) (by decide)).1,
      (makeAliased_ok pre.type "IndexedAccess" (by decide) (by decide) (by decide) (by decide)).2⟩
    apply getF_objLit_field_head
    intro e he
    fin_cases he <;> simp only [entryAvoids_field, entryAvoids_spread] <;>
      first | exact hkpre | decide
  rw [if_neg g4]
  by_cases g5 : truthy (getF pre.type "keyofType") = true
  · rw [if_pos g5]
    refine ⟨_, makeAliasedKindIfNamed pre.type "IndexType", rfl, ?_,
      (makeAliased_ok pre.type "IndexType" (by decide) (by decide) (by decide) (by decide)).1,
      (makeAliased_ok pre.type "IndexType" (by decide) (by decide) (by decide) (by decide)).2⟩
    apply getF_objLit_field_head
    intro e he
    fin_cases he <;> simp only [entryAvoids_field, entryAvoids_spread] <;>
      first | exact hkpre | decide
  rw [if_neg g5]
  by_cases g6 : truthy (getF pre.type "isTuple") = true
  · rw [if_pos g6]
    refine ⟨_, makeAliasedKindIfNamed pre.type "Tuple", rfl, ?_,
      (makeAliased_ok pre.type "Tuple" (by decide) (by decide) (by decide) (by decide)).1,
      (makeAliased_ok pre.type "Tuple" (by decide) (by decide) (by decide) (by decide)).2⟩
    apply getF_objLit_field_head
    intro e he
    fin_cases he <;> simp only [entryAvoids_field, entryAvoids_spread] <;>
      first | exact hkpre | decide
  rw [if_neg g6]
  by_cases g7 : truthy (getF pre.type "conditionalCheckType") = true
  · rw [if_pos g7]
    refine ⟨_, makeAliasedKindIfNamed pre.type "ConditionalType", rfl, ?_,
      (makeAliased_ok pre.type "ConditionalType" (by decide) (by decide) (by decide) (by decide)).1,
      (makeAliased_ok pre.type "ConditionalType" (by decide) (by decide) (by decide) (by decide)).2⟩
    apply getF_objLit_field_head
    intro e he
    fin_cases he <;> simp only [entryAvoids_field, entryAvoids_spread] <;>
      first | exact hkpre | decide
  rw [if_neg g7]
  by_cases g8 : truthy (getF pre.type "substitutionBaseType") = true
  · rw [if_pos g8]
    refine ⟨_, makeAliasedKindIfNamed pre.type "SubstitutionType", rfl, ?_,
      (makeAliased_ok pre.type "SubstitutionType" (by decide) (by decide) (by decide) (by decide)).1,
      (makeAliased_ok pre.type "SubstitutionType" (by decide) (by decide) (by decide) (by decide)).2⟩
    apply getF_objLit_field_head
    intro e he
    fin_cases he <;> simp only [entryAvoids_field, entryAvoids_spread] <;>
      first | exact hkpre | decide
  rw [if_neg g8]
  by_cases g9 : truthy (getF pre.type "reverseMappedSourceType") = true
  · rw [if_pos g9]
    refine ⟨_, makeAliasedKindIfNamed pre.type "ReverseMappedType", rfl, ?_,
      (makeAliased_ok pre.type "ReverseMappedType" (by decide) (by decide) (by decide) (by decide)).1,
      (makeAliased_ok pre.type "ReverseMappedType" (by decide) (by decide) (by decide) (by decide)).2⟩
    apply getF_objLit_field_head
    intro e he
    fin_cases he <;> simp only [entryAvoids_field, entryAvoids_spread] <;>
      first | exact hkpre | decide
  rw [if_neg g9]
  by_cases g10 : truthy (getF pre.type "aliasTypeArguments") = true
  · rw [if_pos g10]
    refine ⟨_, "GenericTypeAlias", rfl, ?_, by decide, by decide⟩
    apply getF_objLit_field_head
    intro e he
    fin_cases he <;> simp only [entryAvoids_field, entryAvoids_spread] <;>
      first | exact hkpre | decide
  rw [if_neg g10]
  by_cases g11 : (truthy (getF pre.type "instantiatedType") &&
      truthy (optChainProp (getF pre.type "typeArguments") "length")) = true
  · rw [if_pos g11]
    have hgk : (if jsStrictEq (getF pre.type "instantiatedType") (getF pre.type "id") = true
        then "GenericType" else "GenericInstantiation") ≠ "" ∧
        (if jsStrictEq (getF pre.type "instantiatedType") (getF pre.type "id") = true
        then "GenericType" else "GenericInstantiation") ∈ kindVocab := by
      split_ifs with hc
      · exact ⟨by decide, by decide⟩
      · exact ⟨by decide, by decide⟩
    refine ⟨_, _, rfl, ?_, hgk.1, hgk.2⟩
    apply getF_objLit_field_head
    intro e he
    fin_cases he <;> simp only [entryAvoids_field, entryAvoids_spread] <;>
      first | exact hkpre | decide
  rw [if_neg g11]
  by_cases g12 : pre.isDestructuring = true
  · rw [if_pos g12]
    refine ⟨_, "Destructuring", rfl, ?_, by decide, by decide⟩
    apply getF_objLit_field_head
    intro e he
    fin_cases he <;> simp only [entryAvoids_field, entryAvoids_spread] <;>
      first | exact hkpre | decide
  rw [if_neg g12]
  rw [hfl]
  rw [show jsIncludes (.vArr fs) "StringLiteral" =
      .ok (fs.any (fun x => jsStrictEq x (.vStr "StringLiteral"))) from rfl]
  simp only [Except.bind]
  by_cases f1 : fs.any (fun x => jsStrictEq x (.vStr "StringLiteral")) = true
  · rw [if_pos f1]
    refine ⟨_, "StringLiteral", rfl, ?_, by decide, by decide⟩
    apply getF_objLit_field_head
    intro e he
    fin_cases he <;> simp only [entryAvoids_field, entryAvoids_spread] <;>
      first | exact hkpre | decide
  rw [if_neg f1]
  rw [show jsIncludes (.vArr fs) "NumberLiteral" =
      .ok (fs.any (fun x => jsStrictEq x (.vStr "NumberLiteral"))) from rfl]
  simp only [Except.bind]
  by_cases f2 : fs.any (fun x => jsStrictEq x (.vStr "NumberLiteral")) = true
  · rw [if_pos f2]
    refine ⟨_, "NumberLiteral", rfl, ?_, by decide, by decide⟩
    apply getF_objLit_field_head
    intro e he
    fin_cases he <;> simp only [entryAvoids_field, entryAvoids_spread] <;>
      first | exact hkpre | decide
  rw [if_neg f2]
  rw [show jsIncludes (.vArr fs) "BigIntLiteral" =
      .ok (fs.any (fun x => jsStrictEq x (.vStr "BigIntLiteral"))) from rfl]
  simp only [Except.bind]
  by_cases f3 : fs.any (fun x => jsStrictEq x (.vStr "BigIntLiteral")) = true
  · rw [if_pos f3]
    refine ⟨_, "BigIntLiteral", rfl, ?_, by decide, by decide⟩
    apply getF_objLit_field_head
    intro e he
    fin_cases he <;> simp only [entryAvoids_field, entryAvoids_spread] <;>
      first | exact hkpre | decide
  rw [if_neg f3]
  rw [show jsIncludes (.vArr fs) "TypeParameter" =
      .ok (fs.any (fun x => jsStrictEq x (.vStr "TypeParameter"))) from rfl]
  simp only [Except.bind]
  by_cases f4 : fs.any (fun x => jsStrictEq x (.vStr "TypeParameter")) = true
  · rw [if_pos f4]
    refine ⟨_, "TypeParameter", rfl, ?_, by decide, by decide⟩
    apply getF_objLit_field_head
    intro e he
    fin_cases he <;> simp only [entryAvoids_field, entryAvoids_spread] <;>
      first | exact hkpre | decide
  rw [if_neg f4]
  rw [show jsIncludes (.vArr fs) "UniqueESSymbol" =
      .ok (fs.any (fun x => jsStrictEq x (.vStr "UniqueESSymbol"))) from rfl]
  simp only [Except.bind]
  by_cases f5 : fs.any (fun x => jsStrictEq x (.vStr "UniqueESSymbol")) = true
  · rw [if_pos f5]
    refine ⟨_, "Unique", rfl, ?_, by decide, by decide⟩
    apply getF_objLit_field_head
    intro e he
    fin_cases he <;> simp only [entryAvoids_field, entryAvoids_spread] <;>
      first | exact hkpre | decide
  rw [if_neg f5]
  rcases isStrOrUndef_elim _ hnm with hn0 | ⟨s, hn0⟩
  · rw [hn0]
    rw [show optChainStartsWith Value.undef "__@" = .ok Value.undef from rfl]
    simp only [Except.bind]
    rw [if_neg (show ¬(truthy Value.undef = true) by decide)]
    rw [if_neg (show ¬((jsStrictEq Value.undef (Value.vStr "__function")
        || jsStrictEq Value.undef (Value.vStr "__type")
        || jsStrictEq Value.undef (Value.vStr "__class")
        || jsStrictEq Value.undef (Value.vStr "__object")) = true) by decide)]
    rw [if_neg (show ¬(jsStrictEq Value.undef (Value.vStr "__jsxAttributes") = true) by decide)]
    rw [show jsIncludes (.vArr fs) "Object" =
        .ok (fs.any (fun x => jsStrictEq x (.vStr "Object"))) from rfl]
    simp only [Except.bind]
    rw [if_neg (show ¬((fs.any (fun x => jsStrictEq x (.vStr "Object"))
        && truthy Value.undef) = true) by simp [truthy])]
    exact jsxOrOther_total pre.type pre.display hkpre hdsp
  · rw [hn0]
    rw [show optChainStartsWith (Value.vStr s) "__@" =
        .ok (.vBool ("__@".toList.isPrefixOf s.toList)) from rfl]
    simp only [Except.bind]
    by_cases hpre1 : "__@".toList.isPrefixOf s.toList = true
    · rw [if_pos (show truthy (Value.vBool ("__@".toList.isPrefixOf s.toList)) = true from hpre1)]
      refine ⟨_, "KnownSymbol", rfl, ?_, by decide, by decide⟩
      apply getF_objLit_field_head
      intro e he
      fin_cases he <;> simp only [entryAvoids_field, entryAvoids_spread] <;>
        first | exact hkpre | decide
    rw [if_neg (show ¬(truthy (Value.vBool ("__@".toList.isPrefixOf s.toList)) = true) from hpre1)]
    by_cases hanon : (jsStrictEq (Value.vStr s) (Value.vStr "__function")
        || jsStrictEq (Value.vStr s) (Value.vStr "__type")
        || jsStrictEq (Value.vStr s) (Value.vStr "__class")
        || jsStrictEq (Value.vStr s) (Value.vStr "__object")) = true
    · rw [if_pos hanon]
      have hs4 : s = "__function" ∨ s = "__type" ∨ s = "__class" ∨ s = "__object" := by
        simp only [jsStrictEq, Bool.or_eq_true, beq_iff_eq] at hanon
        tauto
      rcases hs4 with rfl | rfl | rfl | rfl
      · refine ⟨_, "AnonymousFunction", rfl, ?_, by decide, by decide⟩
        rw [makeAnonymous_kind pre.type pre.display none hkpre, hn0]
        rfl
      · refine ⟨_, "AnonymousType", rfl, ?_, by decide, by decide⟩
        rw [makeAnonymous_kind pre.type pre.display none hkpre, hn0]
        rfl
      · refine ⟨_, "AnonymousClass", rfl, ?_, by decide, by decide⟩
        rw [makeAnonymous_kind pre.type pre.display none hkpre, hn0]
        rfl
      · refine ⟨_, "AnonymousObject", rfl, ?_, by decide, by decide⟩
        rw [makeAnonymous_kind pre.type pre.display none hkpre, hn0]
        rfl
    rw [if_neg hanon]
    by_cases hjx : jsStrictEq (Value.vStr s) (Value.vStr "__jsxAttributes") = true
    · rw [if_pos hjx]
      refine ⟨_, "JsxAttributesType", rfl, ?_, by decide, by decide⟩
      rw [makeAnonymous_kind pre.type pre.display (some "JsxAttributesType") hkpre]
    rw [if_neg hjx]
    rw [show jsIncludes (.vArr fs) "Object" =
        .ok (fs.any (fun x => jsStrictEq x (.vStr "Object"))) from rfl]
    simp only [Except.bind]
    by_cases hobj : (fs.any (fun x => jsStrictEq x (.vStr "Object"))
        && truthy (Value.vStr s)) = true
    · rw [if_pos hobj]
      refine ⟨_, "Object", rfl, ?_, by decide, by decide⟩
      apply getF_objLit_field_head
      intro e he
      fin_cases he <;> simp only [entryAvoids_field, entryAvoids_spread] <;>
        first | exact hkpre | decide
    rw [if_neg hobj]
    exact jsxOrOther_total pre.type pre.display hkpre hdsp

/-- C2 amended: for every raw record of the data model — `flags` present as
an array of tags, `symbolName` and `display` strings when present, and no
output-reserved `kind` field — the §4.1 engine returns exactly one record
whose `kind` is a non-empty string from the fixed vocabulary and raises no
error.  (When `flags` is absent and no rule 1–12 matches, both engines
throw instead — see the counterexample.) -/
theorem c2_totality_kind_vocabulary :
    ∀ (raw : Obj) (fs : List Value),
      "kind" ∉ keys raw →
      getF raw "flags" = .vArr fs →
      isStrOrUndef (getF raw "symbolName") = true →
      isStrOrUndef (getF raw "display") = true →
      ∃ out k, simplifyType raw = .ok out ∧
        getF out "kind" = .vStr k ∧ k ≠ "" ∧ k ∈ kindVocab := by
  intro raw fs hkind hfl hnm hdsp
  have hkpre : "kind" ∉ keys (preprocess raw).type := by
    rw [mem_keys_preprocess]
    rintro (h | h)
    · exact hkind h
    · revert h; decide
  obtain ⟨p, k, hp, hkv, hne, hmem⟩ := c2_rules (preprocess raw) fs hkpre
    (by rw [preprocess_flags]; exact hfl)
    (by rw [preprocess_name]; exact hnm)
    (by rw [preprocess_display]; exact hdsp)
  refine ⟨reorder p, k, ?_, ?_, hne, hmem⟩
  · unfold simplifyType
    rw [show simplifyTypeHelper raw = simplifyRules (preprocess raw) from rfl, hp]
    rfl
  · rw [getF_reorder]
    exact hkv

/-- Witness for the amended C2: a record with an empty flags array and
nothing else falls all the way through to the `Other` fallback. -/
theorem c2_totality_kind_vocabulary_witness :
    ∃ out k, simplifyType [("id", Value.vNum 1), ("flags", Value.vArr [])] = .ok out ∧
      getF out "kind" = .vStr k ∧ k ≠ "" ∧ k ∈ kindVocab :=
  c2_totality_kind_vocabulary [("id", Value.vNum 1), ("flags", Value.vArr [])] []
    (by decide) rfl rfl rfl

/-! ## C6: the output field-order invariant -/

theorem setF_eq_append_of_not_mem (o : Obj) (k : String) (v : Value)
    (h : k ∉ keys o) : setF o k v = o ++ [(k, v)] := by
  induction o with
  | nil => rfl
  | cons kv rest ih =>
      obtain ⟨k1, v1⟩ := kv
      simp only [keys, List.map_cons, List.mem_cons, not_or] at h
      have hne : k1 ≠ k := fun hh => h.1 hh.symm
      simp [setF, hne, ih h.2]

theorem reorder_foldl_spec (p : Obj) (ks : List String) (acc : Obj)
    (hnd : ks.Nodup) (hand : (keys acc).Nodup)
    (hagree : ∀ k ∈ ks, k ∈ keys acc → getF acc k = getF p k) :
    ks.foldl (reorderStep p) acc =
      acc ++ (ks.filter (fun k =>
        decide (¬(k ∈ keys acc ∨ k = "location" ∨ k = "display")))).map
          (fun k => (k, getF p k)) := by
  induction ks generalizing acc with
  | nil => simp
  | cons k0 rest ih =>
      simp only [List.nodup_cons] at hnd
      rw [List.foldl_cons]
      by_cases hmem : k0 ∈ keys acc
      · have hacc : reorderStep p acc k0 = acc := by
          unfold reorderStep
          by_cases hcond : truthy (getF acc k0) = false ∧ k0 ≠ "location" ∧ k0 ≠ "display"
          · rw [if_pos hcond]
            exact setF_eq_self acc k0 (getF p k0) hmem
              (hagree k0 (List.mem_cons_self k0 rest) hmem)
          · rw [if_neg hcond]
        rw [hacc, ih acc hnd.2 hand
          (fun k hk hk2 => hagree k (List.mem_cons_of_mem k0 hk) hk2)]
        congr 1
        rw [List.filter_cons]
        simp [hmem]
      · rcases hloc : decide (k0 = "location" ∨ k0 = "display") with _ | _
        · have hld := of_decide_eq_false hloc
          push_neg at hld
          have hundef : getF acc k0 = Value.undef :=
            getF_eq_undef_of_not_mem_keys acc k0 hmem
          have hacc : reorderStep p acc k0 = acc ++ [(k0, getF p k0)] := by
            unfold reorderStep
            rw [if_pos ⟨by rw [hundef]; rfl, hld.1, hld.2⟩]
            exact setF_eq_append_of_not_mem acc k0 (getF p k0) hmem
          have handx : (keys (acc ++ [(k0, getF p k0)])).Nodup := by
            rw [← setF_eq_append_of_not_mem acc k0 (getF p k0) hmem]
            exact nodup_keys_setF acc k0 (getF p k0) hand
          have hagreex : ∀ k ∈ rest, k ∈ keys (acc ++ [(k0, getF p k0)]) →
              getF (acc ++ [(k0, getF p k0)]) k = getF p k := by
            intro k hk hk2
            have hkne : k ≠ k0 := fun hh => hnd.1 (hh ▸ hk)
            rw [← setF_eq_append_of_not_mem acc k0 (getF p k0) hmem] at hk2 ⊢
            rw [getF_setF_ne acc k0 (getF p k0) k (Ne.symm hkne)]
            rcases (mem_keys_setF acc k0 (getF p k0) k).mp hk2 with hh | hh
            · exact hagree k (List.mem_cons_of_mem k0 hk) hh
            · exact absurd hh hkne
          rw [hacc, ih (acc ++ [(k0, getF p k0)]) hnd.2 handx hagreex]
          have hfilter : rest.filter (fun k =>
              decide (¬(k ∈ keys (acc ++ [(k0, getF p k0)]) ∨ k = "location" ∨ k = "display"))) =
              rest.filter (fun k =>
              decide (¬(k ∈ keys acc ∨ k = "location" ∨ k = "display"))) := by
            apply List.filter_congr
            intro k hk
            have hkne : k ≠ k0 := fun hh => hnd.1 (hh ▸ hk)
            rw [decide_eq_decide]
            simp [keys, hkne]
          rw [hfilter, List.filter_cons]
          have hpred : decide (¬(k0 ∈ keys acc ∨ k0 = "location" ∨ k0 = "display")) = true := by
            simp [hmem, hld.1, hld.2]
          rw [hpred]
          simp
        · have hld := of_decide_eq_true hloc
          have hacc : reorderStep p acc k0 = acc := by
            unfold reorderStep
            rcases hld with rfl | rfl
            · exact if_neg (fun hc => hc.2.1 rfl)
            · exact if_neg (fun hc => hc.2.2 rfl)
          rw [hacc, ih acc hnd.2 hand
            (fun k hk hk2 => hagree k (List.mem_cons_of_mem k0 hk) hk2)]
          congr 1
          rw [List.filter_cons]
          have hpred : decide (¬(k0 ∈ keys acc ∨ k0 = "location" ∨ k0 = "display")) = false := by
            rcases hld with rfl | rfl <;> simp
          rw [hpred]
          simp

theorem getF_reorderSeed_of_mem (p : Obj) (k : String) (hk : k ∈ sixKeys) :
    getF (reorderSeed p) k = getF p k := by
  fin_cases hk <;> rfl

theorem keys_keyMap (l : List String) (f : String → Value) :
    keys (l.map (fun k => (k, f k))) = l := by
  induction l with
  | nil => rfl
  | cons k rest ih =>
      simp only [keys, List.map_cons] at ih ⊢
      rw [ih]

theorem outputKeys_append (a b : Obj) :
    outputKeys (a ++ b) = outputKeys a ++ outputKeys b := by
  simp [outputKeys, List.filter_append]

theorem outputKeys_keyMap (l : List String) (f : String → Value) :
    outputKeys (l.map (fun k => (k, f k))) = l.filter (fun k => !isUndef (f k)) := by
  induction l with
  | nil => rfl
  | cons k rest ih =>
      cases hu : isUndef (f k) <;>
        simp [outputKeys, List.filter_cons, hu, ← ih]

/-- C6: regardless of the raw record's field order, the serialized output's
fields appear as: `id, kind, name, aliasTypeArguments, instantiatedType,
typeArguments` (each only if present) in that fixed order, then every
remaining present field in the order it was first introduced on the
classified record, then `location`, then `display` last. -/
theorem c6_field_order (raw p : Obj) (h : simplifyTypeHelper raw = .ok p) :
    simplifyType raw = .ok (reorder p) ∧
    outputKeys (reorder p) =
      sixKeys.filter (fun k => !isUndef (getF p k))
      ++ ((keys p).filter (fun k =>
            decide (¬(k ∈ sixKeys ∨ k = "location" ∨ k = "display")))).filter
           (fun k => !isUndef (getF p k))
      ++ (if isUndef (getF p "location") then [] else ["location"])
      ++ (if isUndef (getF p "display") then [] else ["display"]) := by
  have hnd := simplifyTypeHelper_nodup raw p h
  constructor
  · unfold simplifyType
    rw [h]
    rfl
  · have hseedkeys : keys (reorderSeed p) = sixKeys := rfl
    have hfold := reorder_foldl_spec p (keys p) (reorderSeed p) hnd
      (by rw [hseedkeys]; decide)
      (fun k hk hk6 => getF_reorderSeed_of_mem p k (hseedkeys ▸ hk6))
    rw [hseedkeys] at hfold
    have hmidkeys : keys ((keys p).filter (fun k =>
        decide (¬(k ∈ sixKeys ∨ k = "location" ∨ k = "display"))) |>.map
          (fun k => (k, getF p k))) =
        (keys p).filter (fun k =>
          decide (¬(k ∈ sixKeys ∨ k = "location" ∨ k = "display"))) :=
      keys_keyMap _ _
    have hkeysapp : ∀ a b : Obj, keys (a ++ b) = keys a ++ keys b :=
      fun a b => List.map_append _ _ _
    have hlocnot : "location" ∉ keys (reorderSeed p ++
        ((keys p).filter (fun k =>
          decide (¬(k ∈ sixKeys ∨ k = "location" ∨ k = "display"))) |>.map
            (fun k => (k, getF p k)))) := by
      rw [hkeysapp, hseedkeys, hmidkeys]
      intro hmem
      rcases List.mem_append.mp hmem with hh | hh
      · revert hh; decide
      · have h2 := (List.mem_filter.mp hh).2
        simp at h2
    have hdispnot : "display" ∉ keys ((reorderSeed p ++
        ((keys p).filter (fun k =>
          decide (¬(k ∈ sixKeys ∨ k = "location" ∨ k = "display"))) |>.map
            (fun k => (k, getF p k)))) ++ [("location", getF p "location")]) := by
      rw [hkeysapp, hkeysapp, hseedkeys, hmidkeys]
      intro hmem
      rcases List.mem_append.mp hmem with hh | hh
      · rcases List.mem_append.mp hh with hh2 | hh2
        · revert hh2; decide
        · have h2 := (List.mem_filter.mp hh2).2
          simp at h2
      · simp [keys] at hh
    unfold reorder
    rw [hfold, setF_eq_append_of_not_mem _ "location" _ hlocnot,
      setF_eq_append_of_not_mem _ "display" _ hdispnot]
    rw [outputKeys_append, outputKeys_append, outputKeys_append]
    rw [show reorderSeed p = sixKeys.map (fun k => (k, getF p k)) from rfl,
      outputKeys_keyMap, outputKeys_keyMap]
    have hloc1 : outputKeys [("location", getF p "location")] =
        (if isUndef (getF p "location") then [] else ["location"]) := by
      cases hu : isUndef (getF p "location") <;> simp [outputKeys, hu]
    have hdisp1 : outputKeys [("display", getF p "display")] =
        (if isUndef (getF p "display") then [] else ["display"]) := by
      cases hu : isUndef (getF p "display") <;> simp [outputKeys, hu]
    rw [hloc1, hdisp1]

/-- Witness for C6: a record whose input fields arrive in scrambled order
still serializes as `id, kind, name, count, types`. -/
theorem c6_field_order_witness :
    simplifyType [("display", Value.vStr "D"), ("flags", Value.vArr [Value.vStr "Object"]),
        ("symbolName", Value.vStr "Foo"),
        ("unionTypes", Value.vArr [Value.vNum 2, Value.vNum 3]), ("id", Value.vNum 1)] =
      .ok (reorder ((simplifyTypeHelper [("display", Value.vStr "D"),
        ("flags", Value.vArr [Value.vStr "Object"]), ("symbolName", Value.vStr "Foo"),
        ("unionTypes", Value.vArr [Value.vNum 2, Value.vNum 3]),
        ("id", Value.vNum 1)]).toOption.getD [])) ∧
    outputKeys (reorder ((simplifyTypeHelper [("display", Value.vStr "D"),
        ("flags", Value.vArr [Value.vStr "Object"]), ("symbolName", Value.vStr "Foo"),
        ("unionTypes", Value.vArr [Value.vNum 2, Value.vNum 3]),
        ("id", Value.vNum 1)]).toOption.getD [])) =
      ["id", "kind", "name", "count", "types"] := by
  have h := c6_field_order [("display", Value.vStr "D"),
    ("flags", Value.vArr [Value.vStr "Object"]), ("symbolName", Value.vStr "Foo"),
    ("unionTypes", Value.vArr [Value.vNum 2, Value.vNum 3]), ("id", Value.vNum 1)]
    ((simplifyTypeHelper [("display", Value.vStr "D"),
      ("flags", Value.vArr [Value.vStr "Object"]), ("symbolName", Value.vStr "Foo"),
      ("unionTypes", Value.vArr [Value.vNum 2, Value.vNum 3]),
      ("id", Value.vNum 1)]).toOption.getD []) rfl
  exact ⟨h.1, by rw [h.2]; rfl⟩

/-- If the three-character list `['_', '_', '@']` is an initial segment of
`l`, then so is the two-character list `['_', '_']`. -/
theorem isPrefixOf_two_of_three (l : List Char)
    (h : (['_', '_', '@'] : List Char).isPrefixOf l = true) :
    (['_', '_'] : List Char).isPrefixOf l = true := by
  match l with
  | [] => exact absurd h (by decide)
  | [c1] => exact absurd h (by simp [List.isPrefixOf])
  | [c1, c2] => exact absurd h (by simp [List.isPrefixOf])
  | c1 :: c2 :: c3 :: t =>
    simp only [List.isPrefixOf, Bool.and_eq_true] at h ⊢
    exact ⟨h.1, h.2.1, trivial⟩

/-- The two rule chains agree on every preprocessed record whose `name` is
absent or is a string that does not start with `"__"`: the twelve structural
guards, the five literal-flag guards, the `Object` rule and the
`JsxElementSignature`/`Other` tail are shared, and the hypothesis turns every
guard of the region present only in src/simplify.ts (`KnownSymbol`, the four
anonymous names, `__jsxAttributes`) and of the inline anonymous branches of
src/index.ts off. -/
theorem rules_agree (pre : Pre)
    (hname : getF pre.type "name" = Value.undef ∨
      ∃ s, getF pre.type "name" = Value.vStr s ∧
        "__".toList.isPrefixOf s.toList = false) :
    processRules pre = simplifyRules pre := by
  unfold processRules simplifyRules
  by_cases g1 : truthy (getF pre.type "intrinsicName") = true
  · rw [if_pos g1, if_pos g1]
  rw [if_neg g1, if_neg g1]
  by_cases g2 : truthy (getF pre.type "unionTypes") = true
  · rw [if_pos g2, if_pos g2]
  rw [if_neg g2, if_neg g2]
  by_cases g3 : truthy (getF pre.type "intersectionTypes") = true
  · rw [if_pos g3, if_pos g3]
  rw [if_neg g3, if_neg g3]
  by_cases g4 : truthy (getF pre.type "indexedAccessObjectType") = true
  · rw [if_pos g4, if_pos g4]
  rw [if_neg g4, if_neg g4]
  by_cases g5 : truthy (getF pre.type "keyofType") = true
  · rw [if_pos g5, if_pos g5]
  rw [if_neg g5, if_neg g5]
  by_cases g6 : truthy (getF pre.type "isTuple") = true
  · rw [if_pos g6, if_pos g6]
  rw [if_neg g6, if_neg g6]
  by_cases g7 : truthy (getF pre.type "conditionalCheckType") = true
  · rw [if_pos g7, if_pos g7]
  rw [if_neg g7, if_neg g7]
  by_cases g8 : truthy (getF pre.type "substitutionBaseType") = true
  · rw [if_pos g8, if_pos g8]
  rw [if_neg g8, if_neg g8]
  by_cases g9 : truthy (getF pre.type "reverseMappedSourceType") = true
  · rw [if_pos g9, if_pos g9]
  rw [if_neg g9, if_neg g9]
  by_cases g10 : truthy (getF pre.type "aliasTypeArguments") = true
  · rw [if_pos g10, if_pos g10]
  rw [if_neg g10, if_neg g10]
  by_cases g11 : (truthy (getF pre.type "instantiatedType")
      && truthy (optChainProp (getF pre.type "typeArguments") "length")) = true
  · rw [if_pos g11, if_pos g11]
  rw [if_neg g11, if_neg g11]
  by_cases g12 : pre.isDestructuring = true
  · rw [if_pos g12, if_pos g12]
  rw [if_neg g12, if_neg g12]
  cases hx1 : jsIncludes pre.flags "StringLiteral"
  · simp only [Except.bind]
  rename_i b1
  simp only [Except.bind]
  rcases Bool.eq_false_or_eq_true b1 with hb1 | hb1
  · rw [hb1, if_pos rfl, if_pos rfl]
  rw [hb1, if_neg Bool.false_ne_true, if_neg Bool.false_ne_true]
  cases hx2 : jsIncludes pre.flags "NumberLiteral"
  · simp only [Except.bind]
  rename_i b2
  simp only [Except.bind]
  rcases Bool.eq_false_or_eq_true b2 with hb2 | hb2
  · rw [hb2, if_pos rfl, if_pos rfl]
  rw [hb2, if_neg Bool.false_ne_true, if_neg Bool.false_ne_true]
  cases hx3 : jsIncludes pre.flags "BigIntLiteral"
  · simp only [Except.bind]
  rename_i b3
  simp only [Except.bind]
  rcases Bool.eq_false_or_eq_true b3 with hb3 | hb3
  · rw [hb3, if_pos rfl, if_pos rfl]
  rw [hb3, if_neg Bool.false_ne_true, if_neg Bool.false_ne_true]
  cases hx4 : jsIncludes pre.flags "TypeParameter"
  · simp only [Except.bind]
  rename_i b4
  simp only [Except.bind]
  rcases Bool.eq_false_or_eq_true b4 with hb4 | hb4
  · rw [hb4, if_pos rfl, if_pos rfl]
  rw [hb4, if_neg Bool.false_ne_true, if_neg Bool.false_ne_true]
  cases hx5 : jsIncludes pre.flags "UniqueESSymbol"
  · simp only [Except.bind]
  rename_i b5
  simp only [Except.bind]
  rcases Bool.eq_false_or_eq_true b5 with hb5 | hb5
  · rw [hb5, if_pos rfl, if_pos rfl]
  rw [hb5, if_neg Bool.false_ne_true, if_neg Bool.false_ne_true]
  rcases hname with hn0 | ⟨s, hn0, hs⟩
  · rw [hn0]
    rw [show optChainStartsWith Value.undef "__@" = Except.ok Value.undef from rfl]
    simp only [Except.bind]
    rw [if_neg (show ¬(jsStrictEq Value.undef (Value.vStr "__type") = true) from by decide),
        if_neg (show ¬(jsStrictEq Value.undef (Value.vStr "__object") = true) from by decide),
        if_neg (show ¬(truthy Value.undef = true) from by decide),
        if_neg (show ¬(truthy Value.undef = true) from by decide),
        if_neg (show ¬((jsStrictEq Value.undef (Value.vStr "__function")
            || jsStrictEq Value.undef (Value.vStr "__type")
            || jsStrictEq Value.undef (Value.vStr "__class")
            || jsStrictEq Value.undef (Value.vStr "__object")) = true) from by decide),
        if_neg (show ¬(jsStrictEq Value.undef (Value.vStr "__jsxAttributes") = true) from by decide)]
    cases ho : jsIncludes pre.flags "Object"
    · simp only [Except.bind]
    rename_i b
    simp only [Except.bind]
    rcases Bool.eq_false_or_eq_true b with hb | hb
    · rw [hb, if_pos rfl,
          if_neg (show ¬((true && truthy Value.undef) = true) from by decide)]
    rw [hb, if_neg Bool.false_ne_true,
        if_neg (show ¬((false && truthy Value.undef) = true) from by decide)]
  · rw [hn0]
    have hneq : ∀ t : String, "__".toList.isPrefixOf t.toList = true →
        ¬(jsStrictEq (Value.vStr s) (Value.vStr t) = true) := by
      intro t ht hx
      have hst : s = t := eq_of_beq hx
      subst hst
      rw [hs] at ht
      exact Bool.false_ne_true ht
    have hks : ¬(truthy (Value.vBool ("__@".toList.isPrefixOf s.toList)) = true) := by
      intro hx
      have hx2 : (['_', '_', '@'] : List Char).isPrefixOf s.toList = true := hx
      have h4 : "__".toList.isPrefixOf s.toList = true :=
        isPrefixOf_two_of_three s.toList hx2
      rw [hs] at h4
      exact Bool.false_ne_true h4
    rw [show optChainStartsWith (Value.vStr s) "__@"
          = Except.ok (Value.vBool ("__@".toList.isPrefixOf s.toList)) from rfl]
    simp only [Except.bind]
    rw [if_neg (hneq "__type" (by decide)),
        if_neg (hneq "__object" (by decide)),
        if_neg hks,
        if_neg (show ¬((jsStrictEq (Value.vStr s) (Value.vStr "__function")
            || jsStrictEq (Value.vStr s) (Value.vStr "__type")
            || jsStrictEq (Value.vStr s) (Value.vStr "__class")
            || jsStrictEq (Value.vStr s) (Value.vStr "__object")) = true) from by
          simp only [Bool.or_eq_true]
          rintro (((hx | hx) | hx) | hx)
          · exact hneq "__function" (by decide) hx
          · exact hneq "__type" (by decide) hx
          · exact hneq "__class" (by decide) hx
          · exact hneq "__object" (by decide) hx),
        if_neg (hneq "__jsxAttributes" (by decide))]
    cases ho : jsIncludes pre.flags "Object"
    · simp only [Except.bind]
    rename_i b
    simp only [Except.bind]
    rcases Bool.eq_false_or_eq_true b with hb | hb
    · rw [hb, if_pos rfl]
      by_cases ht : truthy (Value.vStr s) = true
      · rw [if_pos ht, if_pos (show (true && truthy (Value.vStr s)) = true from by
          rw [ht]; rfl)]
      · rw [if_neg ht, if_neg (show ¬((true && truthy (Value.vStr s)) = true) from by
          simp only [Bool.true_and]; exact ht)]
    rw [hb, if_neg Bool.false_ne_true,
        if_neg (show ¬((false && truthy (Value.vStr s)) = true) from by
          simp only [Bool.false_and]; exact Bool.false_ne_true)]

/-- C10: the two classification implementations are equivalent away from the
anonymous-name rules.  For every raw record whose `symbolName` is absent or is
a string that does not start with `"__"`, the single normalized record inside
the one-element batch returned by `processType` (src/index.ts) equals the
normalized record returned by `simplifyType` (src/simplify.ts), errors
included: the rule sets differ only in the handling of `"__"`-prefixed
names. -/
theorem c10_engine_equivalence (raw : Obj)
    (hname : getF raw "symbolName" = Value.undef ∨
      ∃ s, getF raw "symbolName" = Value.vStr s ∧
        "__".toList.isPrefixOf s.toList = false) :
    processType raw = Except.map (fun out => [out]) (simplifyType raw) := by
  have hpre : getF (preprocess raw).type "name" = Value.undef ∨
      ∃ s, getF (preprocess raw).type "name" = Value.vStr s ∧
        "__".toList.isPrefixOf s.toList = false := by
    rw [preprocess_name]
    exact hname
  have hr : processRules (preprocess raw) = simplifyRules (preprocess raw) :=
    rules_agree (preprocess raw) hpre
  show Except.map (fun processed => [reorder processed]) (processRules (preprocess raw))
      = Except.map (fun out => [out]) (Except.map reorder (simplifyRules (preprocess raw)))
  rw [hr]
  cases simplifyRules (preprocess raw) <;> rfl

/-- Witness for C10 at a concrete record with a plain name: the pipeline
engine and the library engine produce the same (singleton-wrapped)
normalized output. -/
theorem c10_engine_equivalence_witness :
    processType [("id", Value.vNum 1), ("symbolName", Value.vStr "Foo"),
        ("flags", Value.vArr [Value.vStr "Object"])]
      = Except.map (fun out => [out])
          (simplifyType [("id", Value.vNum 1), ("symbolName", Value.vStr "Foo"),
            ("flags", Value.vArr [Value.vStr "Object"])]) :=
  c10_engine_equivalence
    [("id", Value.vNum 1), ("symbolName", Value.vStr "Foo"),
     ("flags", Value.vArr [Value.vStr "Object"])]
    (Or.inr ⟨"Foo", rfl, rfl⟩)
